import Mathlib

/-!
Shallow embedding of the session/stream coordination core of the
webview4claude repository: the session store (src/lib/session-store.js),
the SSE subscriber hub (src/lib/sse-manager.js), the agent run
coordinator (src/lib/agent-runner.js) and the HTTP-facing checks of
src/server.js that guard them.

JavaScript objects become Lean structures; the mutable in-process Map of
sessions becomes an association list threaded through every operation
(JS Map.set keeps the position of an existing key and appends new keys at
the end, which the assoc-list operations below reproduce).  Wall-clock
timestamps are an abstract Nat passed in by the caller; uuid() is modelled
by a fresh-name counter supplied by the caller, with freshness stated as a
hypothesis where a claim needs uniqueness.  Monetary cost is Rat, token
counts are Nat.  Every sse.broadcast call made by the runner is recorded
in an event log; actual delivery to sinks is the separate SSEManager
model.
-/

set_option autoImplicit false

/-- Run status of a session, src/lib/session-store.js line 75:
idle | running | error. -/
inductive Status
  | idle
  | running
  | error
deriving DecidableEq, Repr

/-- The string stored in the status field of the JS object. -/
def Status.label : Status → String
  | .idle => "idle"
  | .running => "running"
  | .error => "error"

/-- A tool call recorded on an assistant message,
src/lib/agent-runner.js lines 146-150. -/
structure ToolCall where
  id : String
  tool : String
  input : String
deriving DecidableEq, Repr

/-- Message content: a plain string for user messages, a list of text
blocks for assistant messages (dynamically typed in the JS source). -/
inductive MsgContent
  | str (s : String)
  | blocks (texts : List String)
deriving DecidableEq, Repr

/-- One entry of a session message history,
src/lib/agent-runner.js lines 35-40 and 132-138. -/
structure ChatMessage where
  id : String
  role : String
  content : MsgContent
  toolCalls : List ToolCall
  timestamp : Nat
deriving DecidableEq, Repr

/-- A session record, src/lib/session-store.js lines 68-81. -/
structure Session where
  id : String
  name : String
  cwd : String
  model : String
  sdkSessionId : Option String
  messages : List ChatMessage
  status : Status
  totalCost : Rat
  totalInputTokens : Nat
  totalOutputTokens : Nat
  createdAt : Nat
  lastActiveAt : Nat
deriving DecidableEq, Repr

/-- The session store: the sessions Map (as an ordered assoc list) plus
the debounce flag, which is true exactly when a save timer is pending
(this._saveTimer of src/lib/session-store.js). -/
structure SessionStore where
  sessions : List (String × Session)
  saveTimerPending : Bool
deriving DecidableEq, Repr

/-- JS Map.get on the sessions assoc list. -/
def mget : List (String × Session) → String → Option Session
  | [], _ => none
  | p :: rest, k => if p.1 = k then some p.2 else mget rest k

/-- JS Map.set: replace the value at an existing key in place, otherwise
append the new entry at the end. -/
def mapSet : List (String × Session) → String → Session → List (String × Session)
  | [], k, v => [(k, v)]
  | p :: rest, k, v => if p.1 = k then (k, v) :: rest else p :: mapSet rest k v

/-- JS Map.delete: remove the entry with the given key. -/
def mdelete : List (String × Session) → String → List (String × Session)
  | [], _ => []
  | p :: rest, k => if p.1 = k then mdelete rest k else p :: mdelete rest k

/-- SessionStore.get, src/lib/session-store.js lines 92-94
(returns null when absent). -/
def SessionStore.get (st : SessionStore) (id : String) : Option Session :=
  mget st.sessions id

/-- SessionStore private scheduleSave, src/lib/session-store.js
lines 39-45: a no-op when a timer is already pending, otherwise arms the
single pending timer.  (The timer later firing and performing the write
is SessionStore.saveSnapshot below.) -/
def SessionStore.scheduleSave (st : SessionStore) : SessionStore :=
  if st.saveTimerPending then st else { st with saveTimerPending := true }

/-- SessionStore.create, src/lib/session-store.js lines 67-85.
freshId stands for uuid(), processCwd for process.cwd(), now for the
current time; empty strings model missing JS arguments (both are falsy). -/
def SessionStore.create (st : SessionStore) (freshId : String)
    (name cwd model : String) (processCwd : String) (now : Nat) :
    Session × SessionStore :=
  let s : Session :=
    { id := freshId
      name := if name = "" then "New Session" else name
      cwd := if cwd = "" then processCwd else cwd
      model := if model = "" then "claude-sonnet-4-5-20250929" else model
      sdkSessionId := none
      messages := []
      status := .idle
      totalCost := 0
      totalInputTokens := 0
      totalOutputTokens := 0
      createdAt := now
      lastActiveAt := now }
  (s, SessionStore.scheduleSave { st with sessions := mapSet st.sessions freshId s })

/-- SessionStore.update, src/lib/session-store.js lines 122-129:
Object.assign the updates onto the record (modelled by the field
function f), refresh lastActiveAt, schedule a save; silently a no-op
when the id is unknown. -/
def SessionStore.update (st : SessionStore) (id : String)
    (f : Session → Session) (now : Nat) : SessionStore :=
  match mget st.sessions id with
  | none => st
  | some s =>
      SessionStore.scheduleSave
        { st with sessions := mapSet st.sessions id { f s with lastActiveAt := now } }

/-- SessionStore.addMessage, src/lib/session-store.js lines 136-141:
appends to the in-memory history and refreshes lastActiveAt.  It does
not call scheduleSave. -/
def SessionStore.addMessage (st : SessionStore) (id : String)
    (msg : ChatMessage) (now : Nat) : SessionStore :=
  match mget st.sessions id with
  | none => st
  | some s =>
      let s1 : Session := { s with messages := s.messages ++ [msg], lastActiveAt := now }
      { st with sessions := mapSet st.sessions id s1 }

/-- SessionStore.delete, src/lib/session-store.js lines 158-162. -/
def SessionStore.delete (st : SessionStore) (id : String) : Bool × SessionStore :=
  if (mget st.sessions id).isSome then
    (true, SessionStore.scheduleSave { st with sessions := mdelete st.sessions id })
  else
    (false, st)

/-- The array of records written to disk by the private save method,
src/lib/session-store.js lines 47-57: every session spread with its
messages field replaced by the empty array. -/
def SessionStore.saveSnapshot (st : SessionStore) : List Session :=
  st.sessions.map (fun p => { p.2 with messages := [] })

/-- SessionStore.list, src/lib/session-store.js lines 100-114, projected
to the fields the spec names (metadata only, message count not bodies). -/
structure SessionSummary where
  id : String
  name : String
  status : Status
  totalCost : Rat
  messageCount : Nat
deriving DecidableEq, Repr

def SessionStore.list (st : SessionStore) : List SessionSummary :=
  st.sessions.map (fun p =>
    { id := p.2.id
      name := p.2.name
      status := p.2.status
      totalCost := p.2.totalCost
      messageCount := p.2.messages.length })

/-- An SSE sink (one Express response object), src/lib/sse-manager.js.
writeOk models whether res.write succeeds or throws. -/
structure Sink where
  sinkId : Nat
  writeOk : Bool
deriving DecidableEq, Repr

/-- The SSE connection manager: the per-session sets of sinks
(src/lib/sse-manager.js line 9), as an ordered assoc list. -/
structure SSEManager where
  clients : List (String × List Sink)
deriving DecidableEq, Repr

/-- JS Map.get on the clients assoc list. -/
def cget : List (String × List Sink) → String → Option (List Sink)
  | [], _ => none
  | p :: rest, k => if p.1 = k then some p.2 else cget rest k

/-- this.clients.get(sessionId). -/
def SSEManager.getSinks (m : SSEManager) (sid : String) : Option (List Sink) :=
  cget m.clients sid

/-- The serialized SSE frame written to every sink,
src/lib/sse-manager.js line 42. -/
def ssePayload (event data : String) : String :=
  "event: " ++ event ++ "\ndata: " ++ data ++ "\n\n"

/-- The for-of loop of SSEManager.broadcast, src/lib/sse-manager.js
lines 43-49: try to write the payload to each sink; a sink whose write
throws is deleted from the set, the loop continues with the rest.
Returns the surviving set and the deliveries made (sink id, payload). -/
def SSEManager.writeAll (payload : String) : List Sink → List Sink × List (Nat × String)
  | [] => ([], [])
  | s :: rest =>
      let (keep, delivered) := SSEManager.writeAll payload rest
      if s.writeOk then (s :: keep, (s.sinkId, payload) :: delivered)
      else (keep, delivered)

/-- SSEManager.broadcast, src/lib/sse-manager.js lines 38-50: a silent
no-op when the session has no sink set or an empty one; otherwise writes
the serialized event to every sink, dropping only sinks whose write
throws. -/
def SSEManager.broadcast (m : SSEManager) (sid : String) (event data : String) :
    SSEManager × List (Nat × String) :=
  match SSEManager.getSinks m sid with
  | none => (m, [])
  | some set =>
      if set.isEmpty then (m, [])
      else
        let (keep, delivered) := SSEManager.writeAll (ssePayload event data) set
        ({ clients := m.clients.map (fun p => if p.1 = sid then (p.1, keep) else p) },
         delivered)

/-- SSEManager.hasClients, src/lib/sse-manager.js lines 57-60. -/
def SSEManager.hasClients (m : SSEManager) (sid : String) : Bool :=
  match SSEManager.getSinks m sid with
  | some set => !set.isEmpty
  | none => false

/-- Usage block of the terminal SDK result message; each field may be
absent (the runner applies the JS default-to-zero idiom). -/
structure UsageSDK where
  inputTokens : Option Nat
  outputTokens : Option Nat
  cacheRead : Option Nat
  cacheCreate : Option Nat
deriving DecidableEq, Repr

/-- A content block of a complete assistant API message,
src/lib/agent-runner.js lines 142-151. -/
inductive ContentBlockSDK
  | textBlock (text : String)
  | toolUseBlock (id : String) (name : String) (input : String)
  | otherBlock
deriving DecidableEq, Repr

/-- The content of a tool_result block: a plain string, an array of
typed parts, or something else (treated as empty),
src/lib/agent-runner.js lines 174-178. -/
inductive ToolResultContent
  | strC (s : String)
  | arrC (parts : List (String × String))
  | otherC
deriving DecidableEq, Repr

/-- A content block of an SDK user message (tool results come back this
way), src/lib/agent-runner.js lines 165-188. -/
inductive UserBlock
  | toolResult (toolUseId : String) (content : ToolResultContent) (isError : Bool)
  | otherUserBlock
deriving DecidableEq, Repr

/-- A partial-message stream event, src/lib/agent-runner.js lines 84-127. -/
inductive StreamEvent
  | contentBlockStartText
  | contentBlockStartToolUse (id : String) (name : String)
  | contentBlockDeltaText (text : String)
  | contentBlockDeltaInputJson (partialJson : String)
  | contentBlockStop
  | otherStreamEvent
deriving DecidableEq, Repr

/-- One message produced by the upstream SDK query iterator, as consumed
by the switch of src/lib/agent-runner.js lines 70-223. -/
inductive SDKMessage
  | system (subtype : String) (sessionId : String) (model : String) (tools : List String)
  | streamEvent (event : StreamEvent)
  | assistant (content : List ContentBlockSDK)
  | user (content : List UserBlock)
  | result (subtype : String) (totalCostUsd : Option Rat) (durationMs : Option Nat)
      (numTurns : Option Nat) (usage : Option UsageSDK) (isError : Option Bool)
deriving DecidableEq, Repr

/-- Whether a message is the terminal result message. -/
def SDKMessage.isResult : SDKMessage → Bool
  | .result _ _ _ _ _ _ => true
  | _ => false

/-- Payload of one sse.broadcast call made by the runner or the chat
endpoint, by event type. -/
inductive EventPayload
  | statusP (status : String)
  | userMessageP (msg : ChatMessage)
  | systemInitP (sdkSessionId : String) (model : String) (tools : List String)
  | toolStartP (msgId : String) (toolCallId : String) (tool : String)
  | textDeltaP (msgId : String) (text : String)
  | toolInputDeltaP (msgId : Option String) (toolCallId : Option String) (partialJson : String)
  | toolCompleteP (msgId : Option String) (toolCallId : String) (output : String) (isError : Bool)
  | assistantMessageP (msg : ChatMessage)
  | errorP (message : String)
  | resultP (subtype : String) (cost : Rat) (duration : Nat) (numTurns : Nat)
      (usageInput : Nat) (usageOutput : Nat) (cacheRead : Nat) (cacheCreate : Nat)
      (isError : Bool) (totalsCost : Rat) (totalsInput : Nat) (totalsOutput : Nat)
deriving DecidableEq, Repr

/-- A recorded sse.broadcast invocation: target session, event name,
payload. -/
structure LogEntry where
  sessionId : String
  event : String
  payload : EventPayload
deriving DecidableEq, Repr

/-- A JavaScript exception reaching the catch of AgentRunner.run:
the AbortError raised by the aborted SDK query, the TypeError raised by
reading a property of a null store.get result, or any upstream failure. -/
inductive JsError
  | abortError
  | typeError (msg : String)
  | upstreamError (msg : String)
deriving DecidableEq, Repr

/-- err.message, as broadcast by the error branch of the catch. -/
def JsError.message : JsError → String
  | .abortError => "This operation was aborted"
  | .typeError m => m
  | .upstreamError m => m

/-- How the upstream lazy sequence ends after yielding its items:
normal exhaustion, an AbortError raised because the run was cancelled,
or any other upstream failure. -/
inductive RunEnd
  | normal
  | abortErrorEnd
  | upstreamErrorEnd (msg : String)
deriving DecidableEq, Repr

/-- uuid(), modelled by a fresh counter. -/
def uuid (n : Nat) : String :=
  "uuid-" ++ toString n

/-- Mutable state of one in-flight run: the shared store, the log of
sse.broadcast calls made so far, the per-run stream accumulators of
src/lib/agent-runner.js lines 44-46, and the fresh-uuid counter. -/
structure RunState where
  store : SessionStore
  log : List LogEntry
  currentMsgId : Option String
  currentToolCallId : Option String
  currentToolName : Option String
  fresh : Nat
deriving DecidableEq, Repr

/-- Record one sse.broadcast call. -/
def RunState.bcast (st : RunState) (sid : String) (event : String)
    (p : EventPayload) : RunState :=
  { st with log := st.log ++ [⟨sid, event, p⟩] }

/-- Query options built by AgentRunner.run, src/lib/agent-runner.js
lines 49-63, restricted to the data-bearing fields (the remaining fields
are constants).  The resume option is set only when session.sdkSessionId
is truthy, so a null or empty stored token passes no resume option. -/
structure QueryOptions where
  cwd : String
  model : String
  resume : Option String
deriving DecidableEq, Repr

def mkOptions (session : Session) : QueryOptions :=
  { cwd := session.cwd
    model := session.model
    resume :=
      match session.sdkSessionId with
      | some t => if t = "" then none else some t
      | none => none }

/-- The message text produced for a tool_result block,
src/lib/agent-runner.js lines 174-178: a string content verbatim, an
array joined over its text parts, anything else empty. -/
def toolResultOutput : ToolResultContent → String
  | .strC s => s
  | .arrC parts => String.join (parts.map (fun p => if p.1 = "text" then p.2 else ""))
  | .otherC => ""

/-- The inner for-of over the content blocks of an SDK user message,
src/lib/agent-runner.js lines 172-187: one tool_complete broadcast per
tool_result block, output capped at 4000 characters. -/
def userBlocksLoop (sid : String) (st : RunState) : List UserBlock → RunState
  | [] => st
  | .toolResult tuid content isErr :: rest =>
      userBlocksLoop sid
        (st.bcast sid "tool_complete"
          (.toolCompleteP st.currentMsgId tuid ((toolResultOutput content).take 4000) isErr))
        rest
  | .otherUserBlock :: rest => userBlocksLoop sid st rest

/-- The body of the switch of AgentRunner.run, src/lib/agent-runner.js
lines 70-223, for one upstream message.  Returns the new run state and,
when the body itself throws, the raised error: reading
store.get(sessionId).totalCost in the result branch throws a TypeError
when the session record has been deleted mid-run. -/
def processMessage (sid : String) (now : Nat) (st : RunState) :
    SDKMessage → RunState × Option JsError
  | .system subtype sdkSid model tools =>
      if subtype = "init" then
        let st1 := { st with
          store := SessionStore.update st.store sid
            (fun t => { t with sdkSessionId := some sdkSid }) now }
        (st1.bcast sid "system_init" (.systemInitP sdkSid model tools), none)
      else (st, none)
  | .streamEvent ev =>
      match ev with
      | .contentBlockStartText =>
          match st.currentMsgId with
          | some _ => (st, none)
          | none => ({ st with currentMsgId := some (uuid st.fresh), fresh := st.fresh + 1 }, none)
      | .contentBlockStartToolUse tid tname =>
          let st1 := { st with currentToolCallId := some tid, currentToolName := some tname }
          match st1.currentMsgId with
          | some mid => (st1.bcast sid "tool_start" (.toolStartP mid tid tname), none)
          | none =>
              (RunState.bcast { st1 with fresh := st1.fresh + 1 } sid "tool_start"
                (.toolStartP (uuid st1.fresh) tid tname), none)
      | .contentBlockDeltaText text =>
          match st.currentMsgId with
          | some mid => (st.bcast sid "text_delta" (.textDeltaP mid text), none)
          | none =>
              let mid := uuid st.fresh
              (RunState.bcast { st with currentMsgId := some mid, fresh := st.fresh + 1 }
                sid "text_delta" (.textDeltaP mid text), none)
      | .contentBlockDeltaInputJson pj =>
          (st.bcast sid "tool_input_delta"
            (.toolInputDeltaP st.currentMsgId st.currentToolCallId pj), none)
      | .contentBlockStop => (st, none)
      | .otherStreamEvent => (st, none)
  | .assistant blocks =>
      let mid := match st.currentMsgId with | some m => m | none => uuid st.fresh
      let fresh1 := match st.currentMsgId with | some _ => st.fresh | none => st.fresh + 1
      let texts := blocks.filterMap (fun b =>
        match b with | .textBlock t => some t | _ => none)
      let calls : List ToolCall := blocks.filterMap (fun b =>
        match b with | .toolUseBlock i n inp => some ⟨i, n, inp⟩ | _ => none)
      let msg : ChatMessage :=
        { id := mid, role := "assistant", content := .blocks texts,
          toolCalls := calls, timestamp := now }
      let st1 := { st with store := SessionStore.addMessage st.store sid msg now, fresh := fresh1 }
      let st2 := st1.bcast sid "assistant_message" (.assistantMessageP msg)
      ({ st2 with currentMsgId := none, currentToolCallId := none, currentToolName := none },
       none)
  | .user blocks => (userBlocksLoop sid st blocks, none)
  | .result subtype costO durO turnsO usageO isErrO =>
      let cost := costO.getD 0
      let dur := durO.getD 0
      let turns := turnsO.getD 0
      let uin := (usageO.bind (fun u => u.inputTokens)).getD 0
      let uout := (usageO.bind (fun u => u.outputTokens)).getD 0
      let ucr := (usageO.bind (fun u => u.cacheRead)).getD 0
      let ucc := (usageO.bind (fun u => u.cacheCreate)).getD 0
      let isErr := isErrO.getD false
      match SessionStore.get st.store sid with
      | none =>
          -- the accumulate update silently no-ops on the absent record,
          -- then store.get(sessionId).totalCost throws on null
          (st, some (.typeError "Cannot read properties of null"))
      | some s2 =>
          let store1 := SessionStore.update st.store sid
            (fun t => { t with
              totalCost := s2.totalCost + cost
              totalInputTokens := s2.totalInputTokens + uin
              totalOutputTokens := s2.totalOutputTokens + uout }) now
          match SessionStore.get store1 sid with
          | none =>
              ({ st with store := store1 }, some (.typeError "Cannot read properties of null"))
          | some s3 =>
              (RunState.bcast { st with store := store1 } sid "result"
                (.resultP subtype cost dur turns uin uout ucr ucc isErr
                  s3.totalCost s3.totalInputTokens s3.totalOutputTokens), none)

/-- How the for-await loop stopped: the iterator was exhausted, the
aborted-signal check broke out, or the loop body raised. -/
inductive LoopExit
  | exhausted
  | broke
  | raised (e : JsError)
deriving DecidableEq, Repr

/-- The for-await loop of AgentRunner.run, src/lib/agent-runner.js
lines 67-224.  abortAfter counts how many further items are consumed
before the cancellation signal flips; none means the signal never flips
while items remain. -/
def runLoop (sid : String) (now : Nat) :
    RunState → List SDKMessage → Option Nat → RunState × LoopExit
  | st, [], _ => (st, .exhausted)
  | st, m :: rest, fuel =>
      if fuel = some 0 then (st, .broke)
      else
        match processMessage sid now st m with
        | (st1, some e) => (st1, .raised e)
        | (st1, none) => runLoop sid now st1 rest (fuel.map (fun n => n - 1))

/-- The catch of AgentRunner.run, src/lib/agent-runner.js lines 225-232:
an AbortError (the signal is aborted exactly when the SDK raises it)
broadcasts status interrupted; any other error broadcasts an error event
and marks the session status error. -/
def runCatch (sid : String) (now : Nat) (st : RunState) (e : JsError) : RunState :=
  match e with
  | .abortError => st.bcast sid "status" (.statusP "interrupted")
  | _ =>
      let st1 := st.bcast sid "error" (.errorP e.message)
      let store1 := SessionStore.update st1.store sid (fun t => { t with status := .error }) now
      { st1 with store := store1 }

/-- The finally of AgentRunner.run, src/lib/agent-runner.js
lines 233-240: drop the active entry, reset a still-running status to
idle (skipped when the record is gone), and broadcast the final status,
falling back to idle when the record is gone. -/
def runFinally (sid : String) (now : Nat) (active : List String) (st : RunState) :
    List String × RunState :=
  let active1 := active.erase sid
  let st1 :=
    match SessionStore.get st.store sid with
    | some s =>
        if s.status = Status.running then
          let storeIdle := SessionStore.update st.store sid (fun t => { t with status := .idle }) now
          { st with store := storeIdle }
        else st
    | none => st
  let finalStatus :=
    match SessionStore.get st1.store sid with
    | some s => s.status.label
    | none => "idle"
  (active1, st1.bcast sid "status" (.statusP finalStatus))

/-- The whole in-flight part of a run after its synchronous prefix:
consume the upstream sequence, then the catch (when the loop raised or
the exhausted iterator ended in an error), then the finally. -/
def resumeRun (sid : String) (now : Nat) (rs0 : RunState) (active : List String)
    (items : List SDKMessage) (ending : RunEnd) (abortAfter : Option Nat) :
    List String × RunState :=
  let lr := runLoop sid now rs0 items abortAfter
  let rs2 :=
    match lr.2 with
    | .broke => lr.1
    | .raised e => runCatch sid now lr.1 e
    | .exhausted =>
        match ending with
        | .normal => lr.1
        | .abortErrorEnd => runCatch sid now lr.1 .abortError
        | .upstreamErrorEnd msg => runCatch sid now lr.1 (.upstreamError msg)
  runFinally sid now active rs2

/-- The synchronous rejection paths of starting a run.  The server
endpoint POST /api/chat (src/server.js lines 80-84) maps the unknown
session to a 404 NotFoundError response and the already-running session
to a 409 ConflictError response; AgentRunner.run lines 24-26 repeats the
same two checks. -/
inductive StartError
  | notFoundError
  | conflictError
deriving DecidableEq, Repr

/-- The synchronous prefix of AgentRunner.run, src/lib/agent-runner.js
lines 24-31: look the session up, reject when absent or already
running, otherwise mark it running.  The whole prefix runs inside one
JavaScript turn (no await before it), so the check and the status set
form a single atomic step with respect to other start calls. -/
def startRun (st : SessionStore) (sid : String) (now : Nat) :
    Except StartError (Session × SessionStore) :=
  match mget st.sessions sid with
  | none => .error .notFoundError
  | some session =>
      if session.status = .running then .error .conflictError
      else
        .ok (session,
          SessionStore.update st sid (fun t => { t with status := .running }) now)

/-- Everything the run leaves behind: the store, the active-run map, the
ordered log of sse.broadcast calls, the options passed to the upstream
query call, and the next fresh uuid counter. -/
structure RunTrace where
  store : SessionStore
  active : List String
  log : List LogEntry
  optionsUsed : QueryOptions
  fresh : Nat
deriving DecidableEq, Repr

/-- The user message recorded and broadcast at the start of a run,
src/lib/agent-runner.js lines 35-40. -/
def runUserMsg (prompt : String) (fresh now : Nat) : ChatMessage :=
  { id := uuid fresh, role := "user", content := .str prompt,
    toolCalls := [], timestamp := now }

/-- The run state right before the first await of AgentRunner.run:
status-running and user-message broadcasts made, user message appended
to history, stream accumulators null, one uuid consumed. -/
def runInitState (sid prompt : String) (st1 : SessionStore) (fresh now : Nat) : RunState :=
  { store := SessionStore.addMessage st1 sid (runUserMsg prompt fresh now) now
    log := [⟨sid, "status", .statusP "running"⟩,
            ⟨sid, "user_message", .userMessageP (runUserMsg prompt fresh now)⟩]
    currentMsgId := none
    currentToolCallId := none
    currentToolName := none
    fresh := fresh + 1 }

/-- AgentRunner.run after a successful synchronous prefix,
src/lib/agent-runner.js lines 28-241: register the abort controller,
broadcast status running, record and broadcast the user message, build
the query options (with the stored resume token when present), then
consume the upstream sequence through catch and finally. -/
def runBody (sid prompt : String) (session : Session) (st1 : SessionStore)
    (active0 : List String) (fresh now : Nat) (items : List SDKMessage)
    (ending : RunEnd) (abortAfter : Option Nat) : RunTrace :=
  let out := resumeRun sid now (runInitState sid prompt st1 fresh now)
    (sid :: active0) items ending abortAfter
  { store := out.2.store
    active := out.1
    log := out.2.log
    optionsUsed := mkOptions session
    fresh := out.2.fresh }

/-- AgentRunner.run, src/lib/agent-runner.js lines 23-241.  The items,
ending and abortAfter parameters describe the behaviour of the upstream
lazy sequence for this run; the result is the thrown synchronous error
or the completed trace of the asynchronous run. -/
def AgentRunner.run (st0 : SessionStore) (active0 : List String)
    (sid prompt : String) (fresh now : Nat) (items : List SDKMessage)
    (ending : RunEnd) (abortAfter : Option Nat) : Except StartError RunTrace :=
  match startRun st0 sid now with
  | .error e => .error e
  | .ok (session, st1) =>
      .ok (runBody sid prompt session st1 active0 fresh now items ending abortAfter)

/-- AgentRunner.isRunning, src/lib/agent-runner.js lines 262-264. -/
def AgentRunner.isRunning (active : List String) (sid : String) : Bool :=
  active.contains sid

/-- AgentRunner.interrupt, src/lib/agent-runner.js lines 248-255:
returns whether an active controller was aborted.  The abort itself
reaches the in-flight run as the abortErrorEnd ending or a finite
abortAfter of AgentRunner.run. -/
def AgentRunner.interrupt (active : List String) (sid : String) : Bool :=
  active.contains sid

/-- The error responses of the session endpoints of src/server.js, in
the vocabulary of the spec error taxonomy. -/
inductive ApiError
  | validationError (msg : String)
  | notFoundError (msg : String)
deriving DecidableEq, Repr

/-- POST /api/sessions, src/server.js lines 43-48: reject a missing or
empty cwd with a 400 ValidationError, otherwise create the session. -/
def createSessionApi (st : SessionStore) (name cwd model : String)
    (freshId : String) (processCwd : String) (now : Nat) :
    Except ApiError (Session × SessionStore) :=
  if cwd = "" then .error (.validationError "cwd is required")
  else .ok (SessionStore.create st freshId name cwd model processCwd now)

/-- DELETE /api/sessions/:id, src/server.js lines 50-57: interrupt any
active run (the signal reaches that run asynchronously), then remove the
record. -/
def deleteSessionApi (st : SessionStore) (id : String) : Bool × SessionStore :=
  SessionStore.delete st id

/-- The cumulative usage counters of a session, as one tuple. -/
def Session.totals (s : Session) : Rat × Nat × Nat :=
  (s.totalCost, s.totalInputTokens, s.totalOutputTokens)

/-- A sample idle session used to evaluate the theorems on concrete
input. -/
def demoSession : Session :=
  { id := "s1", name := "Demo", cwd := "/tmp", model := "m1", sdkSessionId := none,
    messages := [], status := .idle, totalCost := 0, totalInputTokens := 0,
    totalOutputTokens := 0, createdAt := 0, lastActiveAt := 0 }

/-- A sample store holding the idle demo session, no save pending. -/
def demoStore : SessionStore :=
  { sessions := [("s1", demoSession)], saveTimerPending := false }

/-- A sample chat message. -/
def demoMsg : ChatMessage :=
  { id := "m-1", role := "user", content := .str "hello", toolCalls := [], timestamp := 1 }

/-- The demo session with one message in its in-memory history. -/
def demoSessionMsgs : Session :=
  { demoSession with messages := [demoMsg] }

/-- A store whose only session has in-memory history. -/
def demoStoreMsgs : SessionStore :=
  { sessions := [("s1", demoSessionMsgs)], saveTimerPending := false }

/-- A store with a pending save and one session, about to be deleted. -/
def demoStorePending : SessionStore :=
  { sessions := [("s1", demoSession)], saveTimerPending := true }

/-- A run state over an empty store, as left behind after a delete. -/
def demoRunStateDeleted : RunState :=
  { store := { sessions := [], saveTimerPending := true }
    log := [⟨"s1", "status", .statusP "running"⟩]
    currentMsgId := none
    currentToolCallId := none
    currentToolName := none
    fresh := 3 }

/-- A sample SSE manager: session s1 has two healthy sinks and one whose
write throws. -/
def demoMgr : SSEManager :=
  { clients := [("s1", [⟨1, true⟩, ⟨2, false⟩, ⟨3, true⟩]), ("s2", [⟨7, true⟩])] }

/-- The trace of a demo run that completes normally with no upstream
items. -/
def demoTraceNormal : RunTrace :=
  match AgentRunner.run demoStore [] "s1" "hi" 0 5 [] .normal none with
  | .ok tr => tr
  | .error _ =>
      { store := demoStore, active := [], log := [],
        optionsUsed := { cwd := "", model := "", resume := none }, fresh := 0 }

/-! Helper lemmas about the assoc-list session map and the store
operations. -/

theorem getLast?_append_single {α : Type} (l : List α) (a : α) :
    (l ++ [a]).getLast? = some a := by
  exact List.getLast?_concat l

theorem mget_mapSet_self (m : List (String × Session)) (k : String) (v : Session) :
    mget (mapSet m k v) k = some v := by
  induction m with
  | nil => simp [mapSet, mget]
  | cons p rest ih =>
      by_cases h : p.1 = k
      · simp [mapSet, mget, h]
      · simp [mapSet, mget, h, ih]

theorem mget_mapSet_ne (m : List (String × Session)) (k k2 : String) (v : Session)
    (hne : k2 ≠ k) : mget (mapSet m k v) k2 = mget m k2 := by
  have h2 : ¬ k = k2 := fun hh => hne hh.symm
  induction m with
  | nil => simp [mapSet, mget, h2]
  | cons p rest ih =>
      by_cases h : p.1 = k
      · have h3 : ¬ p.1 = k2 := by rw [h]; exact h2
        simp [mapSet, mget, h, h2, h3]
      · simp [mapSet, mget, h, ih]

theorem scheduleSave_sessions (st : SessionStore) :
    (SessionStore.scheduleSave st).sessions = st.sessions := by
  unfold SessionStore.scheduleSave
  split <;> rfl

theorem get_scheduleSave (st : SessionStore) (id : String) :
    (SessionStore.scheduleSave st).get id = st.get id := by
  unfold SessionStore.get
  rw [scheduleSave_sessions]

theorem update_absent (st : SessionStore) (id : String) (f : Session → Session) (now : Nat)
    (h : st.get id = none) : SessionStore.update st id f now = st := by
  unfold SessionStore.get at h
  unfold SessionStore.update
  rw [h]

theorem get_update_self (st : SessionStore) (id : String) (f : Session → Session) (now : Nat)
    (s : Session) (h : st.get id = some s) :
    (SessionStore.update st id f now).get id = some { f s with lastActiveAt := now } := by
  unfold SessionStore.get at h
  unfold SessionStore.update
  rw [h, get_scheduleSave]
  unfold SessionStore.get
  exact mget_mapSet_self _ _ _

theorem addMessage_absent (st : SessionStore) (id : String) (msg : ChatMessage) (now : Nat)
    (h : st.get id = none) : SessionStore.addMessage st id msg now = st := by
  unfold SessionStore.get at h
  unfold SessionStore.addMessage
  rw [h]

theorem get_addMessage_self (st : SessionStore) (id : String) (msg : ChatMessage) (now : Nat)
    (s : Session) (h : st.get id = some s) :
    (SessionStore.addMessage st id msg now).get id =
      some { s with messages := s.messages ++ [msg], lastActiveAt := now } := by
  unfold SessionStore.get at h
  unfold SessionStore.addMessage
  rw [h]
  unfold SessionStore.get
  exact mget_mapSet_self _ _ _

theorem mget_mdelete_self (m : List (String × Session)) (k : String) :
    mget (mdelete m k) k = none := by
  induction m with
  | nil => simp [mdelete, mget]
  | cons p rest ih =>
      by_cases h : p.1 = k
      · simp [mdelete, mget, h, ih]
      · simp [mdelete, mget, h, ih]

theorem delete_get_absent (st : SessionStore) (id : String) :
    ((SessionStore.delete st id).2).get id = none := by
  cases hh : mget st.sessions id with
  | none => simp [SessionStore.delete, hh, SessionStore.get]
  | some s =>
      simp only [SessionStore.delete, hh, Option.isSome_some, if_true]
      rw [get_scheduleSave]
      unfold SessionStore.get
      exact mget_mdelete_self _ _

/-! Lemmas about the run coordinator. -/

theorem bcast_store (st : RunState) (sid event : String) (p : EventPayload) :
    (st.bcast sid event p).store = st.store := rfl

theorem bcast_log (st : RunState) (sid event : String) (p : EventPayload) :
    (st.bcast sid event p).log = st.log ++ [⟨sid, event, p⟩] := rfl

theorem userBlocksLoop_spec (sid : String) (blocks : List UserBlock) :
    ∀ st : RunState, (userBlocksLoop sid st blocks).store = st.store ∧
      ∃ extra, (userBlocksLoop sid st blocks).log = st.log ++ extra ∧
        ∀ e ∈ extra, e.event = "tool_complete" := by
  induction blocks with
  | nil => intro st; exact ⟨rfl, [], by simp [userBlocksLoop]⟩
  | cons b rest ih =>
      intro st
      cases b with
      | otherUserBlock => simpa [userBlocksLoop] using ih st
      | toolResult tuid content isErr =>
          obtain ⟨hstore, extra, hlog, hev⟩ :=
            ih (st.bcast sid "tool_complete"
              (.toolCompleteP st.currentMsgId tuid ((toolResultOutput content).take 4000) isErr))
          refine ⟨by simpa [userBlocksLoop, RunState.bcast] using hstore, ?_⟩
          refine ⟨(⟨sid, "tool_complete",
            .toolCompleteP st.currentMsgId tuid ((toolResultOutput content).take 4000) isErr⟩ :
              LogEntry) :: extra, ?_, ?_⟩
          · simpa [userBlocksLoop, RunState.bcast] using hlog
          · intro e he
            rcases List.mem_cons.mp he with h1 | h2
            · rw [h1]
            · exact hev e h2

theorem runFinally_not_running (sid : String) (now : Nat) (active : List String)
    (st : RunState) :
    ∀ s, SessionStore.get (runFinally sid now active st).2.store sid = some s →
      s.status ≠ Status.running := by
  intro s hs
  simp only [runFinally, bcast_store] at hs
  cases hg : SessionStore.get st.store sid with
  | none => rw [hg] at hs; rw [hg] at hs; exact absurd hs (by simp)
  | some s0 =>
      rw [hg] at hs
      by_cases hr : s0.status = Status.running
      · simp only [hr, if_true] at hs
        rw [get_update_self st.store sid _ now s0 hg] at hs
        have : s = { { s0 with status := Status.idle } with lastActiveAt := now } :=
          (Option.some_injective _ hs).symm
        rw [this]
        simp
      · simp only [hr, if_false] at hs
        rw [hg] at hs
        have : s = s0 := (Option.some_injective _ hs).symm
        rw [this]
        exact hr

theorem runFinally_log (sid : String) (now : Nat) (active : List String) (st : RunState) :
    ∃ x, (runFinally sid now active st).2.log = st.log ++ [⟨sid, "status", .statusP x⟩] := by
  cases hg : SessionStore.get st.store sid with
  | none =>
      refine ⟨"idle", ?_⟩
      simp [runFinally, RunState.bcast, hg]
  | some s0 =>
      by_cases hr : s0.status = Status.running
      · have hx := get_update_self st.store sid (fun t => { t with status := Status.idle }) now s0 hg
        refine ⟨"idle", ?_⟩
        simp [runFinally, RunState.bcast, hg, hr, hx, Status.label]
      · refine ⟨s0.status.label, ?_⟩
        simp [runFinally, RunState.bcast, hg, hr]

theorem userBlocksLoop_log_mem (sid : String) (blocks : List UserBlock) (st : RunState) :
    ∀ e ∈ (userBlocksLoop sid st blocks).log, e ∈ st.log ∨ e.event = "tool_complete" := by
  obtain ⟨_, extra, hlog, hev⟩ := userBlocksLoop_spec sid blocks st
  intro e he
  rw [hlog] at he
  rcases List.mem_append.mp he with h1 | h2
  · exact Or.inl h1
  · exact Or.inr (hev e h2)

theorem userBlocksLoop_log_mono (sid : String) (blocks : List UserBlock) (st : RunState) :
    ∀ e ∈ st.log, e ∈ (userBlocksLoop sid st blocks).log := by
  obtain ⟨_, extra, hlog, _⟩ := userBlocksLoop_spec sid blocks st
  intro e he
  rw [hlog]
  exact List.mem_append_left _ he

theorem processMessage_log_noerr (sid : String) (now : Nat) (st : RunState) (m : SDKMessage) :
    ∀ e ∈ (processMessage sid now st m).1.log, e ∈ st.log ∨ e.event ≠ "error" := by
  intro e he
  cases m with
  | system subtype sdkSid model tools =>
      by_cases hsub : subtype = "init"
      · simp [processMessage, hsub, RunState.bcast] at he
        rcases he with h1 | h2
        · exact Or.inl h1
        · right; rw [h2]; simp
      · simp [processMessage, hsub] at he
        exact Or.inl he
  | streamEvent ev =>
      cases ev with
      | contentBlockStartText =>
          cases hc : st.currentMsgId with
          | some mid => simp [processMessage, hc] at he; exact Or.inl he
          | none => simp [processMessage, hc] at he; exact Or.inl he
      | contentBlockStartToolUse tid tname =>
          cases hc : st.currentMsgId with
          | some mid =>
              simp [processMessage, hc, RunState.bcast] at he
              rcases he with h1 | h2
              · exact Or.inl h1
              · right; rw [h2]; simp
          | none =>
              simp [processMessage, hc, RunState.bcast] at he
              rcases he with h1 | h2
              · exact Or.inl h1
              · right; rw [h2]; simp
      | contentBlockDeltaText text =>
          cases hc : st.currentMsgId with
          | some mid =>
              simp [processMessage, hc, RunState.bcast] at he
              rcases he with h1 | h2
              · exact Or.inl h1
              · right; rw [h2]; simp
          | none =>
              simp [processMessage, hc, RunState.bcast] at he
              rcases he with h1 | h2
              · exact Or.inl h1
              · right; rw [h2]; simp
      | contentBlockDeltaInputJson pj =>
          simp [processMessage, RunState.bcast] at he
          rcases he with h1 | h2
          · exact Or.inl h1
          · right; rw [h2]; simp
      | contentBlockStop => simp [processMessage] at he; exact Or.inl he
      | otherStreamEvent => simp [processMessage] at he; exact Or.inl he
  | assistant blocks =>
      simp [processMessage, RunState.bcast] at he
      rcases he with h1 | h2
      · exact Or.inl h1
      · right; rw [h2]; simp
  | user blocks =>
      have := userBlocksLoop_log_mem sid blocks st e (by simpa [processMessage] using he)
      rcases this with h1 | h2
      · exact Or.inl h1
      · right; rw [h2]; simp
  | result subtype costO durO turnsO usageO isErrO =>
      cases hg : SessionStore.get st.store sid with
      | none => simp [processMessage, hg] at he; exact Or.inl he
      | some s2 =>
          simp [processMessage, hg, RunState.bcast, get_update_self] at he
          rcases he with h1 | h2
          · exact Or.inl h1
          · right; rw [h2]; simp

theorem processMessage_log_mono (sid : String) (now : Nat) (st : RunState) (m : SDKMessage) :
    ∀ e ∈ st.log, e ∈ (processMessage sid now st m).1.log := by
  intro e he
  cases m with
  | system subtype sdkSid model tools =>
      by_cases hsub : subtype = "init"
      · simp [processMessage, hsub, RunState.bcast]
        exact Or.inl he
      · simpa [processMessage, hsub] using he
  | streamEvent ev =>
      cases ev with
      | contentBlockStartText =>
          cases hc : st.currentMsgId with
          | some mid => simpa [processMessage, hc] using he
          | none => simpa [processMessage, hc] using he
      | contentBlockStartToolUse tid tname =>
          cases hc : st.currentMsgId with
          | some mid => simp [processMessage, hc, RunState.bcast]; exact Or.inl he
          | none => simp [processMessage, hc, RunState.bcast]; exact Or.inl he
      | contentBlockDeltaText text =>
          cases hc : st.currentMsgId with
          | some mid => simp [processMessage, hc, RunState.bcast]; exact Or.inl he
          | none => simp [processMessage, hc, RunState.bcast]; exact Or.inl he
      | contentBlockDeltaInputJson pj =>
          simp [processMessage, RunState.bcast]; exact Or.inl he
      | contentBlockStop => simpa [processMessage] using he
      | otherStreamEvent => simpa [processMessage] using he
  | assistant blocks =>
      simp [processMessage, RunState.bcast]; exact Or.inl he
  | user blocks =>
      simpa [processMessage] using userBlocksLoop_log_mono sid blocks st e he
  | result subtype costO durO turnsO usageO isErrO =>
      cases hg : SessionStore.get st.store sid with
      | none => simpa [processMessage, hg] using he
      | some s2 =>
          simp [processMessage, hg, RunState.bcast, get_update_self]
          exact Or.inl he

theorem map_status_update (st : SessionStore) (id : String) (f : Session → Session)
    (now : Nat) (hf : ∀ t, (f t).status = t.status) :
    Option.map Session.status ((SessionStore.update st id f now).get id) =
      Option.map Session.status (st.get id) := by
  cases hg : st.get id with
  | none => rw [update_absent st id f now hg, hg]
  | some s => rw [get_update_self st id f now s hg]; simp [hf]

theorem map_status_addMessage (st : SessionStore) (id : String) (msg : ChatMessage)
    (now : Nat) :
    Option.map Session.status ((SessionStore.addMessage st id msg now).get id) =
      Option.map Session.status (st.get id) := by
  cases hg : st.get id with
  | none => rw [addMessage_absent st id msg now hg, hg]
  | some s => rw [get_addMessage_self st id msg now s hg]; simp

theorem map_totals_update (st : SessionStore) (id : String) (f : Session → Session)
    (now : Nat)
    (h1 : ∀ t, (f t).totalCost = t.totalCost)
    (h2 : ∀ t, (f t).totalInputTokens = t.totalInputTokens)
    (h3 : ∀ t, (f t).totalOutputTokens = t.totalOutputTokens) :
    Option.map Session.totals ((SessionStore.update st id f now).get id) =
      Option.map Session.totals (st.get id) := by
  cases hg : st.get id with
  | none => rw [update_absent st id f now hg, hg]
  | some s =>
      rw [get_update_self st id f now s hg]
      simp [Session.totals, h1, h2, h3]

theorem map_totals_addMessage (st : SessionStore) (id : String) (msg : ChatMessage)
    (now : Nat) :
    Option.map Session.totals ((SessionStore.addMessage st id msg now).get id) =
      Option.map Session.totals (st.get id) := by
  cases hg : st.get id with
  | none => rw [addMessage_absent st id msg now hg, hg]
  | some s =>
      rw [get_addMessage_self st id msg now s hg]
      simp [Session.totals]

theorem processMessage_no_raise (sid : String) (now : Nat) (st : RunState) (m : SDKMessage)
    (s : Session) (h : SessionStore.get st.store sid = some s) :
    (processMessage sid now st m).2 = none := by
  cases m with
  | system subtype sdkSid model tools =>
      by_cases hsub : subtype = "init" <;> simp [processMessage, hsub, RunState.bcast]
  | streamEvent ev =>
      cases ev <;> first
        | (cases hc : st.currentMsgId <;> simp [processMessage, hc, RunState.bcast])
        | simp [processMessage, RunState.bcast]
  | assistant blocks => simp [processMessage, RunState.bcast]
  | user blocks => simp [processMessage]
  | result subtype costO durO turnsO usageO isErrO =>
      have hx := get_update_self st.store sid
        (fun t => { t with
          totalCost := s.totalCost + (costO.getD 0)
          totalInputTokens := s.totalInputTokens + ((usageO.bind (fun u => u.inputTokens)).getD 0)
          totalOutputTokens := s.totalOutputTokens + ((usageO.bind (fun u => u.outputTokens)).getD 0) })
        now s h
      simp [processMessage, h, hx, RunState.bcast]

theorem processMessage_map_status (sid : String) (now : Nat) (st : RunState) (m : SDKMessage) :
    Option.map Session.status (SessionStore.get (processMessage sid now st m).1.store sid) =
      Option.map Session.status (SessionStore.get st.store sid) := by
  cases m with
  | system subtype sdkSid model tools =>
      by_cases hsub : subtype = "init"
      · simp only [processMessage, hsub, if_true, RunState.bcast]
        exact map_status_update st.store sid _ now (fun t => rfl)
      · simp [processMessage, hsub]
  | streamEvent ev =>
      cases ev <;> first
        | (cases hc : st.currentMsgId <;> simp [processMessage, hc, RunState.bcast])
        | simp [processMessage, RunState.bcast]
  | assistant blocks =>
      simp only [processMessage, RunState.bcast]
      exact map_status_addMessage st.store sid _ now
  | user blocks =>
      obtain ⟨hstore, _, _, _⟩ := userBlocksLoop_spec sid blocks st
      simp [processMessage, hstore]
  | result subtype costO durO turnsO usageO isErrO =>
      cases hg : SessionStore.get st.store sid with
      | none => simp [processMessage, hg]
      | some s2 =>
          have hx := get_update_self st.store sid
            (fun t => { t with
              totalCost := s2.totalCost + (costO.getD 0)
              totalInputTokens := s2.totalInputTokens + ((usageO.bind (fun u => u.inputTokens)).getD 0)
              totalOutputTokens := s2.totalOutputTokens + ((usageO.bind (fun u => u.outputTokens)).getD 0) })
            now s2 hg
          simp [processMessage, hg, hx, RunState.bcast]

theorem processMessage_map_totals (sid : String) (now : Nat) (st : RunState) (m : SDKMessage)
    (hm : m.isResult = false) :
    Option.map Session.totals (SessionStore.get (processMessage sid now st m).1.store sid) =
      Option.map Session.totals (SessionStore.get st.store sid) := by
  cases m with
  | system subtype sdkSid model tools =>
      by_cases hsub : subtype = "init"
      · simp only [processMessage, hsub, if_true, RunState.bcast]
        exact map_totals_update st.store sid _ now
          (fun t => rfl) (fun t => rfl) (fun t => rfl)
      · simp [processMessage, hsub]
  | streamEvent ev =>
      cases ev <;> first
        | (cases hc : st.currentMsgId <;> simp [processMessage, hc, RunState.bcast])
        | simp [processMessage, RunState.bcast]
  | assistant blocks =>
      simp only [processMessage, RunState.bcast]
      exact map_totals_addMessage st.store sid _ now
  | user blocks =>
      obtain ⟨hstore, _, _, _⟩ := userBlocksLoop_spec sid blocks st
      simp [processMessage, hstore]
  | result subtype costO durO turnsO usageO isErrO => simp [SDKMessage.isResult] at hm

theorem runLoop_cons_none_fuel (sid : String) (now : Nat) (st : RunState) (m : SDKMessage)
    (rest : List SDKMessage) (h : (processMessage sid now st m).2 = none) :
    runLoop sid now st (m :: rest) none =
      runLoop sid now (processMessage sid now st m).1 rest none := by
  rcases hp : processMessage sid now st m with ⟨st1, oe⟩
  rw [hp] at h
  simp only at h
  subst h
  simp [runLoop, hp]

theorem runLoop_invariant (sid : String) (now : Nat) (items : List SDKMessage) :
    ∀ st s, SessionStore.get st.store sid = some s →
      (runLoop sid now st items none).2 = LoopExit.exhausted ∧
      (Option.map Session.status (SessionStore.get (runLoop sid now st items none).1.store sid) =
        some s.status) ∧
      (∀ e ∈ (runLoop sid now st items none).1.log, e ∈ st.log ∨ e.event ≠ "error") ∧
      ((∀ m ∈ items, m.isResult = false) →
        Option.map Session.totals (SessionStore.get (runLoop sid now st items none).1.store sid) =
          some s.totals) := by
  induction items with
  | nil =>
      intro st s h
      refine ⟨rfl, ?_, ?_, ?_⟩
      · simp [runLoop, h]
      · intro e he; exact Or.inl he
      · intro _; simp [runLoop, h]
  | cons m rest ih =>
      intro st s h
      have hnr := processMessage_no_raise sid now st m s h
      have heq := runLoop_cons_none_fuel sid now st m rest hnr
      have hms := processMessage_map_status sid now st m
      rw [h] at hms
      cases hg1 : SessionStore.get (processMessage sid now st m).1.store sid with
      | none => rw [hg1] at hms; exact absurd hms (by simp)
      | some s1 =>
          rw [hg1] at hms
          have hs1 : s1.status = s.status := by simpa using hms
          obtain ⟨hex, hst, hlog, htot⟩ := ih (processMessage sid now st m).1 s1 hg1
          rw [heq]
          refine ⟨hex, ?_, ?_, ?_⟩
          · rw [hst, hs1]
          · intro e he
            rcases hlog e he with h1 | h2
            · exact processMessage_log_noerr sid now st m e h1
            · exact Or.inr h2
          · intro hall
            have hmt := processMessage_map_totals sid now st m
              (hall m (List.mem_cons_self m rest))
            rw [h] at hmt
            rw [hg1] at hmt
            have hts : s1.totals = s.totals := by simpa using hmt
            have := htot (fun x hx => hall x (List.mem_cons_of_mem m hx))
            rw [this, hts]

theorem processMessage_store_absent (sid : String) (now : Nat) (st : RunState)
    (m : SDKMessage) (h : SessionStore.get st.store sid = none) :
    (processMessage sid now st m).1.store = st.store := by
  cases m with
  | system subtype sdkSid model tools =>
      by_cases hsub : subtype = "init"
      · simp only [processMessage, hsub, if_true, RunState.bcast]
        exact update_absent st.store sid _ now h
      · simp [processMessage, hsub]
  | streamEvent ev =>
      cases ev <;> first
        | (cases hc : st.currentMsgId <;> simp [processMessage, hc, RunState.bcast])
        | simp [processMessage, RunState.bcast]
  | assistant blocks =>
      simp only [processMessage, RunState.bcast]
      exact addMessage_absent st.store sid _ now h
  | user blocks =>
      obtain ⟨hstore, _, _, _⟩ := userBlocksLoop_spec sid blocks st
      simpa [processMessage] using hstore
  | result subtype costO durO turnsO usageO isErrO => simp [processMessage, h]

theorem runLoop_store_absent (sid : String) (now : Nat) (items : List SDKMessage) :
    ∀ (st : RunState) (fuel : Option Nat), SessionStore.get st.store sid = none →
      (runLoop sid now st items fuel).1.store = st.store := by
  induction items with
  | nil => intro st fuel h; rfl
  | cons m rest ih =>
      intro st fuel h
      by_cases hf : fuel = some 0
      · simp [runLoop, hf]
      · rcases hp : processMessage sid now st m with ⟨st1, oe⟩
        have hst : st1.store = st.store := by
          have := processMessage_store_absent sid now st m h
          rw [hp] at this
          exact this
        cases oe with
        | some e => simp [runLoop, hf, hp, hst]
        | none =>
            have h1 : SessionStore.get st1.store sid = none := by rw [hst]; exact h
            simp only [runLoop, hf, if_false, hp]
            rw [ih st1 (fuel.map (fun n => n - 1)) h1, hst]

theorem runCatch_store_absent (sid : String) (now : Nat) (st : RunState) (e : JsError)
    (h : SessionStore.get st.store sid = none) :
    (runCatch sid now st e).store = st.store := by
  cases e with
  | abortError => rfl
  | typeError msg => exact update_absent st.store sid _ now h
  | upstreamError msg => exact update_absent st.store sid _ now h

theorem runFinally_absent (sid : String) (now : Nat) (active : List String) (st : RunState)
    (h : SessionStore.get st.store sid = none) :
    (runFinally sid now active st).2.store = st.store ∧
    (runFinally sid now active st).2.log = st.log ++ [⟨sid, "status", .statusP "idle"⟩] := by
  constructor
  · simp [runFinally, bcast_store, h]
  · simp [runFinally, RunState.bcast, h]

theorem resumeRun_absent (sid : String) (now : Nat) (rs : RunState) (active : List String)
    (items : List SDKMessage) (ending : RunEnd) (abortAfter : Option Nat)
    (h : SessionStore.get rs.store sid = none) :
    (resumeRun sid now rs active items ending abortAfter).2.store = rs.store ∧
    (resumeRun sid now rs active items ending abortAfter).2.log.getLast? =
      some ⟨sid, "status", .statusP "idle"⟩ := by
  rcases hlr : runLoop sid now rs items abortAfter with ⟨rs1, ex⟩
  have hl : rs1.store = rs.store := by
    have := runLoop_store_absent sid now items rs abortAfter h
    rw [hlr] at this
    exact this
  have h1 : SessionStore.get rs1.store sid = none := by rw [hl]; exact h
  have key : ∀ rs2 : RunState, SessionStore.get rs2.store sid = none → rs2.store = rs.store →
      (runFinally sid now active rs2).2.store = rs.store ∧
      (runFinally sid now active rs2).2.log.getLast? =
        some ⟨sid, "status", .statusP "idle"⟩ := by
    intro rs2 hg2 hst2
    obtain ⟨ha, hb⟩ := runFinally_absent sid now active rs2 hg2
    refine ⟨by rw [ha, hst2], ?_⟩
    rw [hb]
    exact getLast?_append_single _ _
  simp only [resumeRun, hlr]
  cases ex with
  | broke => exact key rs1 h1 hl
  | raised e =>
      have hc : (runCatch sid now rs1 e).store = rs1.store :=
        runCatch_store_absent sid now rs1 e h1
      exact key _ (by rw [hc]; exact h1) (by rw [hc]; exact hl)
  | exhausted =>
      cases ending with
      | normal => exact key rs1 h1 hl
      | abortErrorEnd =>
          have hc : (runCatch sid now rs1 .abortError).store = rs1.store :=
            runCatch_store_absent sid now rs1 .abortError h1
          exact key _ (by rw [hc]; exact h1) (by rw [hc]; exact hl)
      | upstreamErrorEnd msg =>
          have hc : (runCatch sid now rs1 (.upstreamError msg)).store = rs1.store :=
            runCatch_store_absent sid now rs1 (.upstreamError msg) h1
          exact key _ (by rw [hc]; exact h1) (by rw [hc]; exact hl)

theorem of_map_status {X : SessionStore} {sid : String} {v : Status}
    (h : Option.map Session.status (X.get sid) = some v) :
    ∃ s2, X.get sid = some s2 ∧ s2.status = v := by
  cases hg : X.get sid with
  | none => rw [hg] at h; exact absurd h (by simp)
  | some s2 =>
      rw [hg] at h
      exact ⟨s2, rfl, by simpa using h⟩

theorem of_map_totals {X : SessionStore} {sid : String} {v : Rat × Nat × Nat}
    (h : Option.map Session.totals (X.get sid) = some v) :
    ∃ s2, X.get sid = some s2 ∧ s2.totals = v := by
  cases hg : X.get sid with
  | none => rw [hg] at h; exact absurd h (by simp)
  | some s2 =>
      rw [hg] at h
      exact ⟨s2, rfl, by simpa using h⟩

theorem startRun_absent (st : SessionStore) (sid : String) (now : Nat)
    (h : st.get sid = none) : startRun st sid now = .error .notFoundError := by
  unfold SessionStore.get at h
  unfold startRun
  rw [h]

theorem startRun_running (st : SessionStore) (sid : String) (now : Nat) (s : Session)
    (h : st.get sid = some s) (hs : s.status = Status.running) :
    startRun st sid now = .error .conflictError := by
  unfold SessionStore.get at h
  unfold startRun
  rw [h]
  simp [hs]

theorem startRun_ok (st : SessionStore) (sid : String) (now : Nat) (s : Session)
    (h : st.get sid = some s) (hs : s.status ≠ Status.running) :
    startRun st sid now =
      .ok (s, SessionStore.update st sid (fun t => { t with status := .running }) now) := by
  unfold SessionStore.get at h
  unfold startRun
  rw [h]
  simp [hs]

theorem run_eq_body (st0 : SessionStore) (active0 : List String) (sid prompt : String)
    (fresh now : Nat) (items : List SDKMessage) (ending : RunEnd) (abortAfter : Option Nat)
    (s : Session) (h : st0.get sid = some s) (hs : s.status ≠ Status.running) :
    AgentRunner.run st0 active0 sid prompt fresh now items ending abortAfter =
      .ok (runBody sid prompt s
        (SessionStore.update st0 sid (fun t => { t with status := .running }) now)
        active0 fresh now items ending abortAfter) := by
  unfold AgentRunner.run
  rw [startRun_ok st0 sid now s h hs]

theorem runBody_store (sid prompt : String) (session : Session) (st1 : SessionStore)
    (active0 : List String) (fresh now : Nat) (items : List SDKMessage)
    (ending : RunEnd) (abortAfter : Option Nat) :
    (runBody sid prompt session st1 active0 fresh now items ending abortAfter).store =
      (resumeRun sid now (runInitState sid prompt st1 fresh now)
        (sid :: active0) items ending abortAfter).2.store := rfl

theorem runBody_log (sid prompt : String) (session : Session) (st1 : SessionStore)
    (active0 : List String) (fresh now : Nat) (items : List SDKMessage)
    (ending : RunEnd) (abortAfter : Option Nat) :
    (runBody sid prompt session st1 active0 fresh now items ending abortAfter).log =
      (resumeRun sid now (runInitState sid prompt st1 fresh now)
        (sid :: active0) items ending abortAfter).2.log := rfl

theorem runBody_options (sid prompt : String) (session : Session) (st1 : SessionStore)
    (active0 : List String) (fresh now : Nat) (items : List SDKMessage)
    (ending : RunEnd) (abortAfter : Option Nat) :
    (runBody sid prompt session st1 active0 fresh now items ending abortAfter).optionsUsed =
      mkOptions session := rfl

theorem runFinally_present (sid : String) (now : Nat) (active : List String) (st : RunState)
    (s : Session) (h : SessionStore.get st.store sid = some s) :
    ∃ s1, SessionStore.get (runFinally sid now active st).2.store sid = some s1 ∧
      s1.status = (if s.status = Status.running then Status.idle else s.status) ∧
      s1.totals = s.totals ∧ s1.sdkSessionId = s.sdkSessionId := by
  by_cases hr : s.status = Status.running
  · have hx := get_update_self st.store sid (fun t => { t with status := Status.idle }) now s h
    refine ⟨{ { s with status := Status.idle } with lastActiveAt := now }, ?_, ?_, rfl, rfl⟩
    · simp [runFinally, bcast_store, h, hr, hx]
    · simp [hr]
  · refine ⟨s, ?_, ?_, rfl, rfl⟩
    · simp [runFinally, bcast_store, h, hr]
    · simp [hr]

theorem resumeRun_exhausted_normal (sid : String) (now : Nat) (rs : RunState)
    (active : List String) (items : List SDKMessage)
    (hex : (runLoop sid now rs items none).2 = .exhausted) :
    resumeRun sid now rs active items .normal none =
      runFinally sid now active (runLoop sid now rs items none).1 := by
  rcases hlr : runLoop sid now rs items none with ⟨rs1, ex⟩
  rw [hlr] at hex
  simp only at hex
  subst hex
  simp [resumeRun, hlr]

theorem resumeRun_exhausted_abort (sid : String) (now : Nat) (rs : RunState)
    (active : List String) (items : List SDKMessage)
    (hex : (runLoop sid now rs items none).2 = .exhausted) :
    resumeRun sid now rs active items .abortErrorEnd none =
      runFinally sid now active
        (runCatch sid now (runLoop sid now rs items none).1 .abortError) := by
  rcases hlr : runLoop sid now rs items none with ⟨rs1, ex⟩
  rw [hlr] at hex
  simp only at hex
  subst hex
  simp [resumeRun, hlr]

theorem resumeRun_final (sid : String) (now : Nat) (rs : RunState) (active : List String)
    (items : List SDKMessage) (ending : RunEnd) (abortAfter : Option Nat) :
    (∀ s, SessionStore.get
        (resumeRun sid now rs active items ending abortAfter).2.store sid = some s →
      s.status ≠ Status.running) ∧
    ∃ x, (resumeRun sid now rs active items ending abortAfter).2.log.getLast? =
      some ⟨sid, "status", .statusP x⟩ := by
  have key : ∀ rs2 : RunState,
      (∀ s, SessionStore.get (runFinally sid now active rs2).2.store sid = some s →
        s.status ≠ Status.running) ∧
      ∃ x, (runFinally sid now active rs2).2.log.getLast? =
        some ⟨sid, "status", .statusP x⟩ := by
    intro rs2
    refine ⟨runFinally_not_running sid now active rs2, ?_⟩
    obtain ⟨x, hx⟩ := runFinally_log sid now active rs2
    exact ⟨x, by rw [hx]; exact getLast?_append_single _ _⟩
  rcases hlr : runLoop sid now rs items abortAfter with ⟨rs1, ex⟩
  simp only [resumeRun, hlr]
  cases ex with
  | broke => exact key rs1
  | raised e => exact key _
  | exhausted => cases ending with
      | normal => exact key rs1
      | abortErrorEnd => exact key _
      | upstreamErrorEnd msg => exact key _

theorem processMessage_init_sdk (sid : String) (now : Nat) (st : RunState)
    (sdkSid model : String) (tools : List String) (s : Session)
    (h : SessionStore.get st.store sid = some s) :
    SessionStore.get
        (processMessage sid now st (.system "init" sdkSid model tools)).1.store sid =
      some { { s with sdkSessionId := some sdkSid } with lastActiveAt := now } := by
  have hx := get_update_self st.store sid
    (fun t => { t with sdkSessionId := some sdkSid }) now s h
  simp [processMessage, RunState.bcast, hx]

theorem processMessage_result_present (sid : String) (now : Nat) (st : RunState)
    (subtype : String) (costO : Option Rat) (durO turnsO : Option Nat)
    (usageO : Option UsageSDK) (isErrO : Option Bool) (s : Session)
    (h : SessionStore.get st.store sid = some s) :
    SessionStore.get
        (processMessage sid now st
          (.result subtype costO durO turnsO usageO isErrO)).1.store sid =
      some { { s with
          totalCost := s.totalCost + costO.getD 0
          totalInputTokens := s.totalInputTokens + ((usageO.bind (fun u => u.inputTokens)).getD 0)
          totalOutputTokens :=
            s.totalOutputTokens + ((usageO.bind (fun u => u.outputTokens)).getD 0) } with
        lastActiveAt := now } ∧
    (⟨sid, "result", .resultP subtype (costO.getD 0) (durO.getD 0) (turnsO.getD 0)
        ((usageO.bind (fun u => u.inputTokens)).getD 0)
        ((usageO.bind (fun u => u.outputTokens)).getD 0)
        ((usageO.bind (fun u => u.cacheRead)).getD 0)
        ((usageO.bind (fun u => u.cacheCreate)).getD 0)
        (isErrO.getD false)
        (s.totalCost + costO.getD 0)
        (s.totalInputTokens + ((usageO.bind (fun u => u.inputTokens)).getD 0))
        (s.totalOutputTokens + ((usageO.bind (fun u => u.outputTokens)).getD 0))⟩ : LogEntry) ∈
      (processMessage sid now st
        (.result subtype costO durO turnsO usageO isErrO)).1.log := by
  have hx := get_update_self st.store sid
    (fun t => { t with
      totalCost := s.totalCost + (costO.getD 0)
      totalInputTokens := s.totalInputTokens + ((usageO.bind (fun u => u.inputTokens)).getD 0)
      totalOutputTokens := s.totalOutputTokens + ((usageO.bind (fun u => u.outputTokens)).getD 0) })
    now s h
  constructor
  · simp [processMessage, h, hx, RunState.bcast]
  · simp [processMessage, h, hx, RunState.bcast]

theorem runLoop_append (sid : String) (now : Nat) (l1 l2 : List SDKMessage) :
    ∀ st, (runLoop sid now st l1 none).2 = .exhausted →
      runLoop sid now st (l1 ++ l2) none =
        runLoop sid now (runLoop sid now st l1 none).1 l2 none := by
  induction l1 with
  | nil => intro st _; rfl
  | cons m rest ih =>
      intro st hex
      rcases hp : processMessage sid now st m with ⟨st1, oe⟩
      cases oe with
      | some e =>
          have : runLoop sid now st (m :: rest) none = (st1, .raised e) := by
            simp [runLoop, hp]
          rw [this] at hex
          simp at hex
      | none =>
          have h1 : (processMessage sid now st m).2 = none := by rw [hp]
          have e1 := runLoop_cons_none_fuel sid now st m rest h1
          have e2 := runLoop_cons_none_fuel sid now st m (rest ++ l2) h1
          rw [e1] at hex
          rw [List.cons_append, e2, ih (processMessage sid now st m).1 hex, e1]

theorem mget_none_keys (m : List (String × Session)) (k : String)
    (h : mget m k = none) : ∀ p ∈ m, p.1 ≠ k := by
  induction m with
  | nil => intro p hp; cases hp
  | cons q rest ih =>
      intro p hp
      by_cases hq : q.1 = k
      · rw [mget, if_pos hq] at h; cases h
      · rw [mget, if_neg hq] at h
        rcases List.mem_cons.mp hp with h1 | h2
        · rw [h1]; exact hq
        · exact ih h p h2

theorem scheduleSave_pending (st : SessionStore) :
    (SessionStore.scheduleSave st).saveTimerPending = true := by
  unfold SessionStore.scheduleSave
  split
  · assumption
  · rfl

theorem writeAll_spec (payload : String) (set : List Sink) :
    SSEManager.writeAll payload set =
      (set.filter (fun s => s.writeOk),
       (set.filter (fun s => s.writeOk)).map (fun s => (s.sinkId, payload))) := by
  induction set with
  | nil => rfl
  | cons s rest ih => cases hw : s.writeOk <;> simp [SSEManager.writeAll, ih, hw]

theorem cget_map_self (cs : List (String × List Sink)) (k : String) (keep : List Sink) :
    cget (cs.map (fun p => if p.1 = k then (p.1, keep) else p)) k =
      (cget cs k).map (fun _ => keep) := by
  induction cs with
  | nil => simp [cget]
  | cons p rest ih =>
      by_cases h : p.1 = k
      · simp [cget, h]
      · simp [cget, h, ih]

theorem cget_map_other (cs : List (String × List Sink)) (k k2 : String) (keep : List Sink)
    (hne : k2 ≠ k) :
    cget (cs.map (fun p => if p.1 = k then (p.1, keep) else p)) k2 = cget cs k2 := by
  induction cs with
  | nil => simp [cget]
  | cons p rest ih =>
      by_cases h : p.1 = k
      · have h2 : ¬ p.1 = k2 := by rw [h]; exact fun hh => hne hh.symm
        have h4 : ¬ k = k2 := fun hh => hne hh.symm
        simp [cget, h, h2, h4, ih]
      · by_cases h3 : p.1 = k2
        · simp [cget, h, h3, hne, ih]
        · simp [cget, h, h3, ih]

/-! Claim theorems. -/

/-- C1: for every session at most one run is active at an instant:
starting a run fails with NotFoundError when the session is unknown and
with ConflictError when its status is already running, and because the
check-and-set prefix of a start is one synchronous step, of two start
calls on the same idle session the first is accepted (leaving the
session running) and the second is rejected with ConflictError. -/
theorem C1_at_most_one_run (st : SessionStore) (sid : String) (now now2 : Nat) :
    (SessionStore.get st sid = none → startRun st sid now = .error .notFoundError) ∧
    (∀ s, SessionStore.get st sid = some s → s.status = Status.running →
      startRun st sid now = .error .conflictError) ∧
    (∀ s, SessionStore.get st sid = some s → s.status ≠ Status.running →
      ∃ st1, startRun st sid now = .ok (s, st1) ∧
        (∃ s1, SessionStore.get st1 sid = some s1 ∧ s1.status = Status.running) ∧
        startRun st1 sid now2 = .error .conflictError) := by
  refine ⟨fun h => startRun_absent st sid now h,
          fun s h hs => startRun_running st sid now s h hs, ?_⟩
  intro s h hs
  have hx := get_update_self st sid (fun t => { t with status := Status.running }) now s h
  refine ⟨_, startRun_ok st sid now s h hs, ⟨_, hx, rfl⟩, ?_⟩
  exact startRun_running _ sid now2 _ hx rfl

/-- Witness for C1: on the concrete demo store the first start is
accepted and the second start on the result is rejected with
ConflictError. -/
theorem C1_witness :
    ∃ st1, startRun demoStore "s1" 3 = .ok (demoSession, st1) ∧
      (∃ s1, SessionStore.get st1 "s1" = some s1 ∧ s1.status = Status.running) ∧
      startRun st1 "s1" 4 = .error .conflictError :=
  (C1_at_most_one_run demoStore "s1" 3 4).2.2 demoSession (by decide) (by decide)

/-- C2: whenever a run completes (any items, any ending, any abort
point), the session status is never left running, it is idle or error,
and the last broadcast of the run is a final status event. -/
theorem C2_run_always_resets_status (st0 : SessionStore) (active0 : List String)
    (sid prompt : String) (fresh now : Nat) (items : List SDKMessage) (ending : RunEnd)
    (abortAfter : Option Nat) (tr : RunTrace)
    (h : AgentRunner.run st0 active0 sid prompt fresh now items ending abortAfter = .ok tr) :
    (∀ s, SessionStore.get tr.store sid = some s →
      s.status = Status.idle ∨ s.status = Status.error) ∧
    ∃ x, tr.log.getLast? = some ⟨sid, "status", .statusP x⟩ := by
  unfold AgentRunner.run at h
  cases hs : startRun st0 sid now with
  | error e => rw [hs] at h; simp at h
  | ok p =>
      rw [hs] at h
      obtain ⟨sess, st1⟩ := p
      simp only at h
      injection h with h2
      subst h2
      obtain ⟨hnr, x, hx⟩ := resumeRun_final sid now (runInitState sid prompt st1 fresh now)
        (sid :: active0) items ending abortAfter
      constructor
      · intro s hg
        rw [runBody_store] at hg
        have hne := hnr s hg
        cases hss : s.status with
        | idle => exact Or.inl rfl
        | running => exact absurd hss hne
        | error => exact Or.inr rfl
      · exact ⟨x, by rw [runBody_log]; exact hx⟩

/-- Witness for C2 at a concrete normally-completing run. -/
theorem C2_witness :
    (∀ s, SessionStore.get demoTraceNormal.store "s1" = some s →
      s.status = Status.idle ∨ s.status = Status.error) ∧
    ∃ x, demoTraceNormal.log.getLast? = some ⟨"s1", "status", .statusP x⟩ :=
  C2_run_always_resets_status demoStore [] "s1" "hi" 0 5 [] .normal none
    demoTraceNormal (by rfl)

/-- C3: cancelling a running session, with the upstream sequence
raising AbortError because of the cancellation, broadcasts an
interrupted status event, never broadcasts an error event, and leaves
the session idle, not error. -/
theorem C3_cancel_interrupted_idle (st0 : SessionStore) (active0 : List String)
    (sid prompt : String) (fresh now : Nat) (items : List SDKMessage) (s0 : Session)
    (h : SessionStore.get st0 sid = some s0) (hs : s0.status ≠ Status.running) :
    ∃ tr, AgentRunner.run st0 active0 sid prompt fresh now items .abortErrorEnd none =
        .ok tr ∧
      (⟨sid, "status", .statusP "interrupted"⟩ : LogEntry) ∈ tr.log ∧
      (∀ e ∈ tr.log, e.event ≠ "error") ∧
      (∃ s1, SessionStore.get tr.store sid = some s1 ∧ s1.status = Status.idle) := by
  have hx1 := get_update_self st0 sid (fun t => { t with status := Status.running }) now s0 h
  have hadd := get_addMessage_self
    (SessionStore.update st0 sid (fun t => { t with status := Status.running }) now)
    sid (runUserMsg prompt fresh now) now _ hx1
  obtain ⟨hex, hst, hlog, _⟩ := runLoop_invariant sid now items
    (runInitState sid prompt
      (SessionStore.update st0 sid (fun t => { t with status := Status.running }) now)
      fresh now) _ hadd
  have hres := resumeRun_exhausted_abort sid now
    (runInitState sid prompt
      (SessionStore.update st0 sid (fun t => { t with status := Status.running }) now)
      fresh now) (sid :: active0) items hex
  obtain ⟨s2, hg2, hs2⟩ := of_map_status hst
  have hs2r : s2.status = Status.running := hs2
  obtain ⟨x, hxl⟩ := runFinally_log sid now (sid :: active0)
    (runCatch sid now
      (runLoop sid now
        (runInitState sid prompt
          (SessionStore.update st0 sid (fun t => { t with status := Status.running }) now)
          fresh now) items none).1 .abortError)
  have hclog : (runCatch sid now
      (runLoop sid now
        (runInitState sid prompt
          (SessionStore.update st0 sid (fun t => { t with status := Status.running }) now)
          fresh now) items none).1 .abortError).log =
      (runLoop sid now
        (runInitState sid prompt
          (SessionStore.update st0 sid (fun t => { t with status := Status.running }) now)
          fresh now) items none).1.log ++
        [⟨sid, "status", .statusP "interrupted"⟩] := rfl
  refine ⟨_, run_eq_body st0 active0 sid prompt fresh now items .abortErrorEnd none s0 h hs,
    ?_, ?_, ?_⟩
  · rw [runBody_log, hres, hxl, hclog]
    exact List.mem_append_left _ (List.mem_append_right _ (List.mem_singleton_self _))
  · rw [runBody_log, hres, hxl, hclog]
    intro e he
    rcases List.mem_append.mp he with he1 | he2
    · rcases List.mem_append.mp he1 with he3 | he4
      · rcases hlog e he3 with h5 | h6
        · simp [runInitState] at h5
          rcases h5 with h7 | h7 <;> (rw [h7]; simp)
        · exact h6
      · rw [List.mem_singleton.mp he4]; simp
    · rw [List.mem_singleton.mp he2]; simp
  · rw [runBody_store, hres]
    have hgc : SessionStore.get
        (runCatch sid now
          (runLoop sid now
            (runInitState sid prompt
              (SessionStore.update st0 sid (fun t => { t with status := Status.running }) now)
              fresh now) items none).1 .abortError).store sid = some s2 := hg2
    obtain ⟨s1, hgf, hsif, _, _⟩ := runFinally_present sid now (sid :: active0) _ s2 hgc
    rw [hs2r] at hsif
    simp only [if_true] at hsif
    exact ⟨s1, hgf, by simpa using hsif⟩

/-- Witness for C3 at the concrete demo store. -/
theorem C3_witness :
    ∃ tr, AgentRunner.run demoStore [] "s1" "hi" 0 5 [] .abortErrorEnd none = .ok tr ∧
      (⟨"s1", "status", .statusP "interrupted"⟩ : LogEntry) ∈ tr.log ∧
      (∀ e ∈ tr.log, e.event ≠ "error") ∧
      (∃ s1, SessionStore.get tr.store "s1" = some s1 ∧ s1.status = Status.idle) :=
  C3_cancel_interrupted_idle demoStore [] "s1" "hi" 0 5 [] demoSession
    (by decide) (by decide)

theorem resumeRun_result_core (sid : String) (now : Nat) (rs0 : RunState)
    (active : List String) (pre : List SDKMessage) (subtype : String)
    (costO : Option Rat) (durO turnsO : Option Nat) (usageO : Option UsageSDK)
    (isErrO : Option Bool) (sadd : Session)
    (hadd : SessionStore.get rs0.store sid = some sadd)
    (hpre : ∀ m ∈ pre, m.isResult = false) :
    ∃ s1, SessionStore.get
        (resumeRun sid now rs0 active
          (pre ++ [.result subtype costO durO turnsO usageO isErrO]) .normal none).2.store
        sid = some s1 ∧
      s1.totalCost = sadd.totalCost + costO.getD 0 ∧
      s1.totalInputTokens =
        sadd.totalInputTokens + ((usageO.bind (fun u => u.inputTokens)).getD 0) ∧
      s1.totalOutputTokens =
        sadd.totalOutputTokens + ((usageO.bind (fun u => u.outputTokens)).getD 0) ∧
      (⟨sid, "result", .resultP subtype (costO.getD 0) (durO.getD 0) (turnsO.getD 0)
          ((usageO.bind (fun u => u.inputTokens)).getD 0)
          ((usageO.bind (fun u => u.outputTokens)).getD 0)
          ((usageO.bind (fun u => u.cacheRead)).getD 0)
          ((usageO.bind (fun u => u.cacheCreate)).getD 0)
          (isErrO.getD false)
          (sadd.totalCost + costO.getD 0)
          (sadd.totalInputTokens + ((usageO.bind (fun u => u.inputTokens)).getD 0))
          (sadd.totalOutputTokens + ((usageO.bind (fun u => u.outputTokens)).getD 0))⟩ :
        LogEntry) ∈
        (resumeRun sid now rs0 active
          (pre ++ [.result subtype costO durO turnsO usageO isErrO]) .normal none).2.log := by
  obtain ⟨hex, hst, _, htotf⟩ := runLoop_invariant sid now pre rs0 sadd hadd
  have htot := htotf hpre
  obtain ⟨s2, hg2, hs2tot⟩ := of_map_totals htot
  have hcomp : s2.totalCost = sadd.totalCost ∧ s2.totalInputTokens = sadd.totalInputTokens ∧
      s2.totalOutputTokens = sadd.totalOutputTokens := by
    have h9 := hs2tot
    simp [Session.totals, Prod.ext_iff] at h9
    exact h9
  obtain ⟨hcc, hci, hco⟩ := hcomp
  have hnr2 := processMessage_no_raise sid now (runLoop sid now rs0 pre none).1
    (.result subtype costO durO turnsO usageO isErrO) s2 hg2
  have hone := runLoop_cons_none_fuel sid now (runLoop sid now rs0 pre none).1
    (.result subtype costO durO turnsO usageO isErrO) [] hnr2
  have happ := runLoop_append sid now pre
    [.result subtype costO durO turnsO usageO isErrO] rs0 hex
  have hexfull : (runLoop sid now rs0
      (pre ++ [.result subtype costO durO turnsO usageO isErrO]) none).2 = .exhausted := by
    rw [happ, hone]
    rfl
  have hLfull : (runLoop sid now rs0
      (pre ++ [.result subtype costO durO turnsO usageO isErrO]) none).1 =
      (processMessage sid now (runLoop sid now rs0 pre none).1
        (.result subtype costO durO turnsO usageO isErrO)).1 := by
    rw [happ, hone]
    rfl
  have hresume := resumeRun_exhausted_normal sid now rs0 active
    (pre ++ [.result subtype costO durO turnsO usageO isErrO]) hexfull
  obtain ⟨hgupd, hmem⟩ := processMessage_result_present sid now
    (runLoop sid now rs0 pre none).1 subtype costO durO turnsO usageO isErrO s2 hg2
  obtain ⟨s1, hgf, _, hs1tot, _⟩ := runFinally_present sid now active
    (processMessage sid now (runLoop sid now rs0 pre none).1
      (.result subtype costO durO turnsO usageO isErrO)).1 _ hgupd
  obtain ⟨x, hxl⟩ := runFinally_log sid now active
    (processMessage sid now (runLoop sid now rs0 pre none).1
      (.result subtype costO durO turnsO usageO isErrO)).1
  have hs1c : s1.totalCost = s2.totalCost + costO.getD 0 ∧
      s1.totalInputTokens = s2.totalInputTokens + ((usageO.bind (fun u => u.inputTokens)).getD 0) ∧
      s1.totalOutputTokens =
        s2.totalOutputTokens + ((usageO.bind (fun u => u.outputTokens)).getD 0) := by
    have h9 := hs1tot
    simp [Session.totals, Prod.ext_iff] at h9
    exact h9
  refine ⟨s1, ?_, ?_, ?_, ?_, ?_⟩
  · rw [hresume, hLfull]; exact hgf
  · rw [hs1c.1, hcc]
  · rw [hs1c.2.1, hci]
  · rw [hs1c.2.2, hco]
  · rw [hresume, hLfull, ← hcc, ← hci, ← hco]
    have hfl : (runFinally sid now active
        (processMessage sid now (runLoop sid now rs0 pre none).1
          (.result subtype costO durO turnsO usageO isErrO)).1).2.log =
        (processMessage sid now (runLoop sid now rs0 pre none).1
          (.result subtype costO durO turnsO usageO isErrO)).1.log ++
          [⟨sid, "status", .statusP x⟩] := hxl
    rw [hfl]
    exact List.mem_append_left _ hmem

set_option maxHeartbeats 2000000 in
/-- C4: on the terminal result event the cumulative session counters
equal their pre-run values plus the reported usage of the run, added
rather than overwritten, and the broadcast result event carries both the
figures of this run and the updated running totals of the session. -/
theorem C4_result_accumulates (st0 : SessionStore) (active0 : List String)
    (sid prompt : String) (fresh now : Nat) (pre : List SDKMessage)
    (subtype : String) (costO : Option Rat) (durO turnsO : Option Nat)
    (usageO : Option UsageSDK) (isErrO : Option Bool) (s0 : Session)
    (h : SessionStore.get st0 sid = some s0) (hs : s0.status ≠ Status.running)
    (hpre : ∀ m ∈ pre, m.isResult = false) :
    ∃ tr s1,
      AgentRunner.run st0 active0 sid prompt fresh now
        (pre ++ [.result subtype costO durO turnsO usageO isErrO]) .normal none = .ok tr ∧
      SessionStore.get tr.store sid = some s1 ∧
      s1.totalCost = s0.totalCost + costO.getD 0 ∧
      s1.totalInputTokens =
        s0.totalInputTokens + ((usageO.bind (fun u => u.inputTokens)).getD 0) ∧
      s1.totalOutputTokens =
        s0.totalOutputTokens + ((usageO.bind (fun u => u.outputTokens)).getD 0) ∧
      (⟨sid, "result", .resultP subtype (costO.getD 0) (durO.getD 0) (turnsO.getD 0)
          ((usageO.bind (fun u => u.inputTokens)).getD 0)
          ((usageO.bind (fun u => u.outputTokens)).getD 0)
          ((usageO.bind (fun u => u.cacheRead)).getD 0)
          ((usageO.bind (fun u => u.cacheCreate)).getD 0)
          (isErrO.getD false)
          (s0.totalCost + costO.getD 0)
          (s0.totalInputTokens + ((usageO.bind (fun u => u.inputTokens)).getD 0))
          (s0.totalOutputTokens + ((usageO.bind (fun u => u.outputTokens)).getD 0))⟩ :
        LogEntry) ∈ tr.log := by
  have hx1 := get_update_self st0 sid (fun t => { t with status := Status.running }) now s0 h
  have hadd := get_addMessage_self
    (SessionStore.update st0 sid (fun t => { t with status := Status.running }) now)
    sid (runUserMsg prompt fresh now) now _ hx1
  obtain ⟨s1, hgf, hc, hi, ho, hmem⟩ := resumeRun_result_core sid now
    (runInitState sid prompt
      (SessionStore.update st0 sid (fun t => { t with status := Status.running }) now)
      fresh now)
    (sid :: active0) pre subtype costO durO turnsO usageO isErrO _ hadd hpre
  refine ⟨_, s1,
    run_eq_body st0 active0 sid prompt fresh now
      (pre ++ [.result subtype costO durO turnsO usageO isErrO]) .normal none s0 h hs,
    ?_, ?_, ?_, ?_, ?_⟩
  · rw [runBody_store]; exact hgf
  · exact hc
  · exact hi
  · exact ho
  · rw [runBody_log]; exact hmem

/-- Witness for C4 at the concrete demo store: a run reporting cost 2
and 3 input and 4 output tokens adds exactly those amounts to the zero
counters and the result broadcast carries both figures and totals. -/
theorem C4_witness :
    ∃ tr s1,
      AgentRunner.run demoStore [] "s1" "hi" 0 5
        [.result "success" (some 2) (some 100) (some 1)
          (some ⟨some 3, some 4, none, none⟩) (some false)] .normal none = .ok tr ∧
      SessionStore.get tr.store "s1" = some s1 ∧
      s1.totalCost = demoSession.totalCost + 2 ∧
      s1.totalInputTokens = demoSession.totalInputTokens + 3 ∧
      s1.totalOutputTokens = demoSession.totalOutputTokens + 4 ∧
      (⟨"s1", "result", .resultP "success" 2 100 1 3 4 0 0 false
          (demoSession.totalCost + 2) (demoSession.totalInputTokens + 3)
          (demoSession.totalOutputTokens + 4)⟩ : LogEntry) ∈ tr.log :=
  C4_result_accumulates demoStore [] "s1" "hi" 0 5 [] "success" (some 2) (some 100) (some 1)
    (some ⟨some 3, some 4, none, none⟩) (some false) demoSession (by decide) (by decide)
    (by intro m hm; cases hm)

/-- C5: creating a session through the API fails with ValidationError
when the working directory is empty; when it succeeds it assigns the
fresh unique id, sets the initial status to idle and zeroes every
cumulative counter. -/
theorem C5_create_session (st : SessionStore) (name model processCwd freshId : String)
    (now : Nat) :
    (createSessionApi st name "" model freshId processCwd now =
      .error (.validationError "cwd is required")) ∧
    (∀ cwd, cwd ≠ "" → SessionStore.get st freshId = none →
      ∃ s st1, createSessionApi st name cwd model freshId processCwd now = .ok (s, st1) ∧
        s.id = freshId ∧ s.status = Status.idle ∧ s.totalCost = 0 ∧
        s.totalInputTokens = 0 ∧ s.totalOutputTokens = 0 ∧
        SessionStore.get st1 freshId = some s ∧
        ∀ p ∈ st.sessions, p.1 ≠ s.id) := by
  constructor
  · simp [createSessionApi]
  · intro cwd hc hfresh
    refine ⟨(SessionStore.create st freshId name cwd model processCwd now).1,
            (SessionStore.create st freshId name cwd model processCwd now).2,
            ?_, rfl, rfl, rfl, rfl, rfl, ?_, ?_⟩
    · simp [createSessionApi, hc]
    · have e1 : (SessionStore.create st freshId name cwd model processCwd now).2 = SessionStore.scheduleSave { st with sessions := mapSet st.sessions freshId (SessionStore.create st freshId name cwd model processCwd now).1 } := rfl
      rw [e1, get_scheduleSave]
      exact mget_mapSet_self _ _ _
    · intro p hp
      exact mget_none_keys st.sessions freshId hfresh p hp

/-- Witness for C5 at the concrete demo store. -/
theorem C5_witness :
    (createSessionApi demoStore "New" "" "m" "id-9" "/root" 3 =
      .error (.validationError "cwd is required")) ∧
    (∃ s st1, createSessionApi demoStore "New" "/w" "m" "id-9" "/root" 3 = .ok (s, st1) ∧
      s.id = "id-9" ∧ s.status = Status.idle ∧ s.totalCost = 0 ∧
      s.totalInputTokens = 0 ∧ s.totalOutputTokens = 0 ∧
      SessionStore.get st1 "id-9" = some s ∧
      ∀ p ∈ demoStore.sessions, p.1 ≠ s.id) :=
  ⟨(C5_create_session demoStore "New" "m" "/root" "id-9" 3).1,
   (C5_create_session demoStore "New" "m" "/root" "id-9" 3).2 "/w" (by decide) (by decide)⟩

/-- C6 counterexample: appendMessage is a mutating registry call, the
message history of the session changes, yet it schedules no snapshot
write: the pending flag stays false, refuting the claim that every
mutating call among create, update, appendMessage and delete schedules
a debounced write. -/
theorem C6_counterexample :
    (SessionStore.addMessage demoStore "s1" demoMsg 7).saveTimerPending = false ∧
    SessionStore.get (SessionStore.addMessage demoStore "s1" demoMsg 7) "s1" ≠
      SessionStore.get demoStore "s1" := by
  decide

/-- C6 amended: create, update of an existing session, and delete of an
existing session each schedule a debounced snapshot write, and a
scheduling call while a write is already pending is coalesced into it
(at most one pending write); appendMessage mutates the in-memory
history only and never schedules a write. -/
theorem C6_amended (st : SessionStore) (id freshId name cwd model processCwd : String)
    (now : Nat) (msg : ChatMessage) (f : Session → Session) :
    ((SessionStore.create st freshId name cwd model processCwd now).2.saveTimerPending =
      true) ∧
    (∀ s, SessionStore.get st id = some s →
      (SessionStore.update st id f now).saveTimerPending = true) ∧
    (∀ s, SessionStore.get st id = some s →
      (SessionStore.delete st id).1 = true ∧
      (SessionStore.delete st id).2.saveTimerPending = true) ∧
    ((SessionStore.addMessage st id msg now).saveTimerPending = st.saveTimerPending) ∧
    (st.saveTimerPending = true → SessionStore.scheduleSave st = st) := by
  refine ⟨scheduleSave_pending _, ?_, ?_, ?_, ?_⟩
  · intro s hgs
    unfold SessionStore.get at hgs
    unfold SessionStore.update
    rw [hgs]
    exact scheduleSave_pending _
  · intro s hgs
    unfold SessionStore.get at hgs
    unfold SessionStore.delete
    rw [hgs]
    simp [scheduleSave_pending]
  · cases hgs : mget st.sessions id with
    | none => simp [SessionStore.addMessage, hgs]
    | some s => simp [SessionStore.addMessage, hgs]
  · intro hp
    unfold SessionStore.scheduleSave
    rw [if_pos hp]

/-- Witness for C6 amended at concrete stores. -/
theorem C6_witness :
    ((SessionStore.update demoStore "s1" (fun t => { t with name := "X" }) 3).saveTimerPending =
      true) ∧
    ((SessionStore.delete demoStore "s1").1 = true ∧
      (SessionStore.delete demoStore "s1").2.saveTimerPending = true) ∧
    ((SessionStore.addMessage demoStore "s1" demoMsg 3).saveTimerPending =
      demoStore.saveTimerPending) ∧
    SessionStore.scheduleSave demoStorePending = demoStorePending :=
  ⟨(C6_amended demoStore "s1" "id-9" "N" "/w" "m" "/root" 3 demoMsg
      (fun t => { t with name := "X" })).2.1 demoSession (by decide),
   (C6_amended demoStore "s1" "id-9" "N" "/w" "m" "/root" 3 demoMsg
      (fun t => { t with name := "X" })).2.2.1 demoSession (by decide),
   (C6_amended demoStore "s1" "id-9" "N" "/w" "m" "/root" 3 demoMsg
      (fun t => { t with name := "X" })).2.2.2.1,
   (C6_amended demoStorePending "s1" "id-9" "N" "/w" "m" "/root" 3 demoMsg
      (fun t => { t with name := "X" })).2.2.2.2 (by decide)⟩

/-- C7: broadcasting to a session with no registered sinks, or an empty
set of sinks, is a silent no-op leaving the manager unchanged and
delivering nothing; when sinks exist, exactly the sinks whose write
throws are removed, every surviving sink of the session receives the
serialized event, and the sinks of every other session are untouched. -/
theorem C7_broadcast_isolation (m : SSEManager) (sid event data : String) :
    ((SSEManager.getSinks m sid = none ∨ SSEManager.getSinks m sid = some []) →
      SSEManager.broadcast m sid event data = (m, [])) ∧
    (∀ set, SSEManager.getSinks m sid = some set → set ≠ [] →
      SSEManager.getSinks (SSEManager.broadcast m sid event data).1 sid =
        some (set.filter (fun s => s.writeOk)) ∧
      (SSEManager.broadcast m sid event data).2 =
        (set.filter (fun s => s.writeOk)).map (fun s => (s.sinkId, ssePayload event data)) ∧
      ∀ sid2, sid2 ≠ sid →
        SSEManager.getSinks (SSEManager.broadcast m sid event data).1 sid2 =
          SSEManager.getSinks m sid2) := by
  constructor
  · rintro (hn | he)
    · simp [SSEManager.broadcast, hn]
    · simp [SSEManager.broadcast, he]
  · intro set hset hne
    cases set with
    | nil => exact absurd rfl hne
    | cons a rest =>
        have hw := writeAll_spec (ssePayload event data) (a :: rest)
        have hb : SSEManager.broadcast m sid event data =
            ({ clients := m.clients.map (fun p =>
                if p.1 = sid then (p.1, (a :: rest).filter (fun s => s.writeOk)) else p) },
             ((a :: rest).filter (fun s => s.writeOk)).map
               (fun s => (s.sinkId, ssePayload event data))) := by
          simp [SSEManager.broadcast, hset, hw]
        have hset2 : cget m.clients sid = some (a :: rest) := hset
        refine ⟨?_, ?_, ?_⟩
        · rw [hb]
          show cget (m.clients.map _) sid = _
          rw [cget_map_self, hset2]
          rfl
        · rw [hb]
        · intro sid2 hs2
          rw [hb]
          exact cget_map_other m.clients sid sid2 _ hs2

/-- Witness for C7 at the concrete demo manager: the failing sink 2 is
removed, sinks 1 and 3 still receive the event, session s2 is untouched,
and broadcasting to an unknown session is a no-op. -/
theorem C7_witness :
    SSEManager.getSinks (SSEManager.broadcast demoMgr "s1" "text_delta" "d").1 "s1" =
      some [⟨1, true⟩, ⟨3, true⟩] ∧
    (SSEManager.broadcast demoMgr "s1" "text_delta" "d").2 =
      [(1, ssePayload "text_delta" "d"), (3, ssePayload "text_delta" "d")] ∧
    SSEManager.getSinks (SSEManager.broadcast demoMgr "s1" "text_delta" "d").1 "s2" =
      SSEManager.getSinks demoMgr "s2" ∧
    SSEManager.broadcast demoMgr "nosuch" "text_delta" "d" = (demoMgr, []) := by
  obtain ⟨_, hB⟩ := C7_broadcast_isolation demoMgr "s1" "text_delta" "d"
  obtain ⟨h1, h2, h3⟩ := hB [⟨1, true⟩, ⟨2, false⟩, ⟨3, true⟩] (by decide) (by decide)
  exact ⟨h1, h2, h3 "s2" (by decide),
    (C7_broadcast_isolation demoMgr "nosuch" "text_delta" "d").1 (Or.inl (by decide))⟩

set_option maxHeartbeats 2000000 in
/-- C8: the resume token delivered by the upstream init event of one
run is stored on the session, a subsequent run on the same session
passes the stored token as the resume option of its upstream call, and
a first run with no stored token passes none. -/
theorem C8_resume_token (st0 : SessionStore) (active0 active2 : List String)
    (sid prompt prompt2 : String) (fresh now fresh2 now2 : Nat)
    (tok model2 : String) (tools2 : List String) (s0 : Session)
    (h : SessionStore.get st0 sid = some s0) (hs : s0.status ≠ Status.running)
    (hnone : s0.sdkSessionId = none) (htok : tok ≠ "") :
    ∃ tr1, AgentRunner.run st0 active0 sid prompt fresh now
        [.system "init" tok model2 tools2] .normal none = .ok tr1 ∧
      tr1.optionsUsed.resume = none ∧
      (∃ s1, SessionStore.get tr1.store sid = some s1 ∧ s1.sdkSessionId = some tok ∧
        s1.status = Status.idle) ∧
      ∃ tr2, AgentRunner.run tr1.store active2 sid prompt2 fresh2 now2 [] .normal none =
          .ok tr2 ∧
        tr2.optionsUsed.resume = some tok := by
  have hx1 := get_update_self st0 sid (fun t => { t with status := Status.running }) now s0 h
  have hadd := get_addMessage_self
    (SessionStore.update st0 sid (fun t => { t with status := Status.running }) now)
    sid (runUserMsg prompt fresh now) now _ hx1
  have hnr := processMessage_no_raise sid now
    (runInitState sid prompt
      (SessionStore.update st0 sid (fun t => { t with status := Status.running }) now)
      fresh now)
    (.system "init" tok model2 tools2) _ hadd
  have hone := runLoop_cons_none_fuel sid now
    (runInitState sid prompt
      (SessionStore.update st0 sid (fun t => { t with status := Status.running }) now)
      fresh now)
    (.system "init" tok model2 tools2) [] hnr
  have hinit := processMessage_init_sdk sid now
    (runInitState sid prompt
      (SessionStore.update st0 sid (fun t => { t with status := Status.running }) now)
      fresh now) tok model2 tools2 _ hadd
  have hexfull : (runLoop sid now
      (runInitState sid prompt
        (SessionStore.update st0 sid (fun t => { t with status := Status.running }) now)
        fresh now)
      [.system "init" tok model2 tools2] none).2 = .exhausted := by
    rw [hone]
    rfl
  have hLfull : (runLoop sid now
      (runInitState sid prompt
        (SessionStore.update st0 sid (fun t => { t with status := Status.running }) now)
        fresh now)
      [.system "init" tok model2 tools2] none).1 =
      (processMessage sid now
        (runInitState sid prompt
          (SessionStore.update st0 sid (fun t => { t with status := Status.running }) now)
          fresh now)
        (.system "init" tok model2 tools2)).1 := by
    rw [hone]
    rfl
  have hresume := resumeRun_exhausted_normal sid now
    (runInitState sid prompt
      (SessionStore.update st0 sid (fun t => { t with status := Status.running }) now)
      fresh now)
    (sid :: active0) [.system "init" tok model2 tools2] hexfull
  obtain ⟨s1, hgf, hsif, _, hsdk⟩ := runFinally_present sid now (sid :: active0)
    (processMessage sid now
      (runInitState sid prompt
        (SessionStore.update st0 sid (fun t => { t with status := Status.running }) now)
        fresh now)
      (.system "init" tok model2 tools2)).1 _ hinit
  have hs1idle : s1.status = Status.idle := by simpa using hsif
  have hs1sdk : s1.sdkSessionId = some tok := hsdk
  have hget1 : SessionStore.get
      (runBody sid prompt s0
        (SessionStore.update st0 sid (fun t => { t with status := Status.running }) now)
        active0 fresh now [.system "init" tok model2 tools2] .normal none).store sid =
      some s1 := by
    rw [runBody_store, hresume, hLfull]
    exact hgf
  refine ⟨_, run_eq_body st0 active0 sid prompt fresh now
      [.system "init" tok model2 tools2] .normal none s0 h hs, ?_, ⟨s1, hget1, hs1sdk, hs1idle⟩, ?_⟩
  · rw [runBody_options]
    simp [mkOptions, hnone]
  · refine ⟨_, run_eq_body _ active2 sid prompt2 fresh2 now2 [] .normal none s1 hget1
      (by rw [hs1idle]; intro hh; cases hh), ?_⟩
    rw [runBody_options]
    simp [mkOptions, hs1sdk, htok]

/-- Witness for C8 at the concrete demo store. -/
theorem C8_witness :
    ∃ tr1, AgentRunner.run demoStore [] "s1" "hi" 0 5
        [.system "init" "sdk-77" "m2" []] .normal none = .ok tr1 ∧
      tr1.optionsUsed.resume = none ∧
      (∃ s1, SessionStore.get tr1.store "s1" = some s1 ∧ s1.sdkSessionId = some "sdk-77" ∧
        s1.status = Status.idle) ∧
      ∃ tr2, AgentRunner.run tr1.store [] "s1" "again" 9 6 [] .normal none = .ok tr2 ∧
        tr2.optionsUsed.resume = some "sdk-77" :=
  C8_resume_token demoStore [] [] "s1" "hi" "again" 0 5 9 6 "sdk-77" "m2" [] demoSession
    (by decide) (by decide) (by decide) (by decide)

/-- C9: every session record in a persisted snapshot has an empty
message list, whatever the in-memory history was at the time of the
write: message bodies are never persisted. -/
theorem C9_snapshot_no_messages (st : SessionStore) :
    ∀ r ∈ SessionStore.saveSnapshot st, r.messages = [] := by
  intro r hr
  simp only [SessionStore.saveSnapshot, List.mem_map] at hr
  obtain ⟨p, _, hq⟩ := hr
  rw [← hq]

/-- Witness for C9: the snapshot of a store whose session holds one
in-memory message contains the session with an empty history. -/
theorem C9_witness :
    ({ demoSessionMsgs with messages := [] } : Session).messages = [] ∧
    ({ demoSessionMsgs with messages := [] } : Session) ∈
      SessionStore.saveSnapshot demoStoreMsgs ∧
    demoSessionMsgs.messages ≠ [] :=
  ⟨C9_snapshot_no_messages demoStoreMsgs _ (by decide), by decide, by decide⟩

/-- C10: when the session record has been deleted (DELETE endpoint)
while its run is still in flight, the remaining loop, catch and finally
steps of the run never re-insert or re-create the record: the session
map is left exactly as the delete left it, the final status update is
skipped, the session remains absent, and the final status broadcast
falls back to idle. -/
theorem C10_delete_mid_run (sid : String) (now : Nat) (st2 : SessionStore) (rs : RunState)
    (active : List String) (items : List SDKMessage) (ending : RunEnd)
    (abortAfter : Option Nat) (hdel : rs.store = (deleteSessionApi st2 sid).2) :
    (resumeRun sid now rs active items ending abortAfter).2.store = rs.store ∧
    SessionStore.get (resumeRun sid now rs active items ending abortAfter).2.store sid =
      none ∧
    (resumeRun sid now rs active items ending abortAfter).2.log.getLast? =
      some ⟨sid, "status", .statusP "idle"⟩ := by
  have habs : SessionStore.get rs.store sid = none := by
    rw [hdel]
    exact delete_get_absent st2 sid
  obtain ⟨h1, h2⟩ := resumeRun_absent sid now rs active items ending abortAfter habs
  exact ⟨h1, by rw [h1]; exact habs, h2⟩

/-- Witness for C10: after deleting the only session, a run remainder
that still sees a terminal result event leaves the store unchanged and
broadcasts a final idle status. -/
theorem C10_witness :
    (resumeRun "s1" 9 demoRunStateDeleted []
        [.result "success" (some 2) none none none none] .normal none).2.store =
      demoRunStateDeleted.store ∧
    SessionStore.get (resumeRun "s1" 9 demoRunStateDeleted []
        [.result "success" (some 2) none none none none] .normal none).2.store "s1" =
      none ∧
    (resumeRun "s1" 9 demoRunStateDeleted []
        [.result "success" (some 2) none none none none] .normal none).2.log.getLast? =
      some ⟨"s1", "status", .statusP "idle"⟩ :=
  C10_delete_mid_run "s1" 9 demoStorePending demoRunStateDeleted []
    [.result "success" (some 2) none none none none] .normal none (by decide)
